import Mathlib

/-!
# esp32WSPR: slot scheduling, tone frequencies and the transmit sequencer

A shallow embedding of the scheduling and transmit code of `src/main.cpp`:

* `computeNextTxEpoch` (lines 423-435): the next transmit slot;
* `wsprBaseHz`, `setTone` (lines 150-153, 1263-1267): the tone frequency
  and the word written to the Si5351;
* `rfOn`, `rfOff`, `transmitWSPR` (lines 185-201, 1270-1321): the
  162-symbol transmit loop, with the device commands, deadline checks and
  servicing calls it performs recorded in an event trace;
* `isValidCallsign`, `isValidLocator`, `handleSaveWspr`, `loadSettings`
  (lines 1095-1158, 204-292): validation, saving and loading of the settings.

Conventions.  `time_t` values are mathematical integers (`Int`) with C's
truncating `/` and `%` (`Int.tdiv`, `Int.tmod`); signed overflow of
`time_t` is undefined in C and lies outside the model.  `double` values
are exact rationals.  `uint32_t` values are naturals reduced modulo
`2 ^ 32` where the code can wrap.  Loops that the C code runs until a
condition holds take a fuel argument and return `none` when it runs out.
-/

namespace WSPR

/-! ## Slot schedule -/

/-- The `while (true)` loop of `computeNextTxEpoch` (lines 427-432):
advance `t` by 120 s until the slot index of its minute is even. -/
def slotLoop : Nat → Int → Option Int
  | 0, _ => none
  | fuel + 1, t =>
    let minute : Int := (t.tdiv 60).tmod 60
    let slotIndex : Int := minute.tdiv 2
    if slotIndex.tmod 2 = 0 then some t else slotLoop fuel (t + 120)

/-- The function `computeNextTxEpoch` (lines 423-435), with the global
`txEverySlot` passed explicitly. -/
def computeNextTxEpoch (txEverySlot : Bool) (fuel : Nat) (now : Int) : Option Int :=
  let t : Int := (now.tdiv 120 + 1) * 120
  if !txEverySlot then slotLoop fuel t else some t

/-- The slot index of an epoch, as `computeNextTxEpoch` computes it:
`minute = (t / 60) % 60`, `slotIndex = minute / 2`. -/
def slotIndexOf (t : Int) : Int := ((t.tdiv 60).tmod 60).tdiv 2

/-! ## Constants, band table and configuration -/

/-- The constant `TONE_SPACING_HZ` (line 47), as an exact rational. -/
def TONE_SPACING_HZ : ℚ := 1.4648

/-- The constant `SYMBOL_PERIOD_US` (line 49). -/
def SYMBOL_PERIOD_US : Nat := 683000

/-- The number of values of a `uint32_t`. -/
def U32 : Nat := 4294967296

/-- The number of values of a `uint64_t`. -/
def U64 : Nat := 18446744073709551616

/-- The struct `BandDef` (line 61). -/
structure BandDef where
  name : String
  dial_hz : ℚ
  deriving DecidableEq, Repr

/-- The table `BANDS` (lines 62-75). -/
def BANDS : List BandDef :=
  [ ⟨"160m", 1836600⟩, ⟨"80m", 3568600⟩, ⟨"60m", 5287200⟩, ⟨"40m", 7038600⟩,
    ⟨"30m", 10138700⟩, ⟨"20m", 14095600⟩, ⟨"17m", 18104600⟩, ⟨"15m", 21094600⟩,
    ⟨"12m", 24924600⟩, ⟨"10m", 28124600⟩, ⟨"6m", 50293000⟩, ⟨"2m", 144488500⟩ ]

/-- The constant `NUM_BANDS` (line 76). -/
def NUM_BANDS : Nat := BANDS.length

/-- The settings globals that the web handlers may write (lines 97-111). -/
structure Config where
  CALLSIGN : String
  LOCATOR : String
  POWER_DBM : Nat
  bandIndex : Nat
  bandCalHz : List ℚ
  bandClockOut : List Nat
  txEnabled : Bool
  txEverySlot : Bool
  deriving DecidableEq, Repr

/-- The globals read by the transmit code: the settings, the per-session
offset `sessionFreqOffsetHz` (line 126) and the buffer `symbols` (line 81). -/
structure Globals where
  cfg : Config
  sessionFreqOffsetHz : ℚ
  symbols : List Nat
  deriving DecidableEq, Repr

/-! ## Tone frequency -/

/-- The dial frequency `BANDS[idx].dial_hz`; an index outside the table is
undefined behaviour in C and reads as 0 here. -/
def dialHz (idx : Nat) : ℚ := (BANDS.getD idx ⟨"", 0⟩).dial_hz

/-- The function `wsprBaseHz` (lines 151-153). -/
def wsprBaseHz (c : Config) : ℚ := dialHz c.bandIndex + 100

/-- The value of the local `f` of `setTone` (lines 1264-1265). -/
def setToneHz (g : Globals) (tone : Int) : ℚ :=
  let cal : ℚ := g.cfg.bandCalHz.getD g.cfg.bandIndex 0
  wsprBaseHz g.cfg + cal + g.sessionFreqOffsetHz + ((tone : ℚ) * TONE_SPACING_HZ)

/-- The conversion `(uint64_t) x` of a `double`: truncation toward zero.
A value whose truncation is outside `0 .. 2^64 - 1` is undefined behaviour
in C; here a negative one reads as 0 and a large one is reduced modulo
`2 ^ 64`. -/
def castU64 (x : ℚ) : Nat := (Int.tdiv x.num x.den).toNat % U64

/-- The first argument of `si5351.set_freq` in `setTone` (line 1266):
`(uint64_t)(f * 100ULL)`. -/
def setToneWord (g : Globals) (tone : Int) : Nat := castU64 (setToneHz g tone * 100)

/-- The clock output `bandClockOut[bandIndex]` used by `setTone`, `rfOn`
and `rfOff`. -/
def activeClock (c : Config) : Nat := c.bandClockOut.getD c.bandIndex 0

/-! ## Transmit sequencer -/

/-- What the transmit code does that is visible outside it: commands to the
Si5351, evaluations of the deadline test, and the calls made while waiting. -/
inductive Event where
  | output_enable (clk : Nat) (enable : Nat)
  | set_freq (freq : Nat) (clk : Nat)
  | deadlineCheck (nowUs : Nat) (targetUs : Nat)
  | handleClient
  | processNextRequest
  | delay (ms : Nat)
  deriving DecidableEq, Repr

/-- Events of the deadline-wait loop (lines 1310-1314). -/
def Event.isWait : Event → Bool
  | .deadlineCheck _ _ => true
  | .handleClient => true
  | .processNextRequest => true
  | .delay _ => true
  | _ => false

/-- The commands `output_enable(_, 0)`. -/
def Event.isDisable : Event → Bool
  | .output_enable _ 0 => true
  | _ => false

/-- The commands `output_enable(_, e)` with `e` non-zero. -/
def Event.isEnable : Event → Bool
  | .output_enable _ 0 => false
  | .output_enable _ _ => true
  | _ => false

/-- The surroundings of one call of `transmitWSPR`. -/
structure Env where
  /-- the value `time(&now)` stores in `timeValid` -/
  wallClock : Int
  /-- the value returned by `random(0, 100)` -/
  randomDraw : Int
  /-- the symbols `jt.wspr_encode` writes for a callsign, locator and power -/
  wspr_encode : String → String → Nat → List Nat
  /-- the free-running microsecond count at the k-th call of `micros()`;
  the call returns it modulo `2 ^ 32` -/
  microsAt : Nat → Nat
  /-- what the k-th call of `server.handleClient()` does to the settings -/
  serve : Nat → Config → Config
  /-- the global `captivePortalActive` (line 91) -/
  captivePortalActive : Bool

/-- The state of a run of `transmitWSPR`: the globals, how many times
`micros()` and `server.handleClient()` have been called, and the events so
far. -/
structure TxState where
  g : Globals
  clockReads : Nat
  served : Nat
  trace : List Event

/-- The function `timeValid` (lines 145-148) on the clock value it reads. -/
def timeValid (now : Int) : Bool := decide (now > 1000000000)

/-- Subtraction of two `uint32_t` values. -/
def sub32 (a b : Nat) : Nat := (a % U32 + (U32 - b % U32)) % U32

/-- The conversion `(int32_t) x` of a `uint32_t`. -/
def toInt32 (x : Nat) : Int :=
  if x % U32 < 2147483648 then ((x % U32 : Nat) : Int) else ((x % U32 : Nat) : Int) - 4294967296

/-- The function `rfOn` (lines 194-201). -/
def rfOn (s : TxState) : TxState :=
  { s with trace := s.trace ++ [Event.output_enable (activeClock s.g.cfg) 1] }

/-- The function `rfOff` (lines 185-193). -/
def rfOff (s : TxState) : TxState :=
  { s with trace := s.trace ++ [Event.output_enable (activeClock s.g.cfg) 0,
                                 Event.set_freq 0 (activeClock s.g.cfg)] }

/-- The function `setTone` (lines 1263-1267). -/
def setTone (tone : Int) (s : TxState) : TxState :=
  { s with trace := s.trace ++ [Event.set_freq (setToneWord s.g tone) (activeClock s.g.cfg)] }

/-- The deadline of symbol `i` (line 1307):
`startUs + (uint32_t)(i + 1) * SYMBOL_PERIOD_US` in `uint32_t` arithmetic. -/
def targetUsOf (startUs : Nat) (i : Nat) : Nat :=
  (startUs % U32 + ((i + 1) % U32 * SYMBOL_PERIOD_US) % U32) % U32

/-- The body of the wait loop (lines 1311-1313). -/
def serviceOnce (env : Env) (s : TxState) : TxState :=
  let s1 : TxState :=
    { s with g := { s.g with cfg := env.serve s.served s.g.cfg },
             served := s.served + 1,
             trace := s.trace ++ [Event.handleClient] }
  let s2 : TxState :=
    if env.captivePortalActive then
      { s1 with trace := s1.trace ++ [Event.processNextRequest] }
    else s1
  { s2 with trace := s2.trace ++ [Event.delay 1] }

/-- The wait loop (lines 1310-1314):
`while ((int32_t)(micros() - targetUs) < 0) { ... }`. -/
def waitLoop (env : Env) (targetUs : Nat) : Nat → TxState → Option TxState
  | 0, _ => none
  | fuel + 1, s =>
    let nowUs : Nat := env.microsAt s.clockReads % U32
    let s1 : TxState :=
      { s with clockReads := s.clockReads + 1,
               trace := s.trace ++ [Event.deadlineCheck nowUs targetUs] }
    if toInt32 (sub32 nowUs targetUs) < 0 then waitLoop env targetUs fuel (serviceOnce env s1)
    else some s1

/-- The symbol loop (lines 1303-1315), from index `i` with `n` symbols to
go; each wait loop gets `fuel` iterations. -/
def txLoop (env : Env) (fuel : Nat) (startUs : Nat) : Nat → Nat → TxState → Option TxState
  | 0, _, s => some s
  | n + 1, i, s =>
    let s1 : TxState := setTone ((s.g.symbols.getD i 0 : Nat) : Int) s
    match waitLoop env (targetUsOf startUs i) fuel s1 with
    | none => none
    | some s2 => txLoop env fuel startUs n (i + 1) s2

/-- The globals after the arming steps of `transmitWSPR` (lines 1280-1291):
the session offset is drawn and the symbols are encoded. -/
def armGlobals (env : Env) (g : Globals) : Globals :=
  { g with sessionFreqOffsetHz := (env.randomDraw : ℚ),
           symbols := env.wspr_encode g.cfg.CALLSIGN g.cfg.LOCATOR g.cfg.POWER_DBM }

/-- The function `transmitWSPR` (lines 1270-1321) run on globals `g`; serial
output and the LED are left out. -/
def transmitWSPR (env : Env) (fuel : Nat) (g : Globals) : Option TxState :=
  if !g.cfg.txEnabled then some ⟨g, 0, 0, []⟩
  else if !timeValid env.wallClock then some ⟨g, 0, 0, []⟩
  else
    let s1 : TxState := rfOn ⟨armGlobals env g, 0, 0, []⟩
    let startUs : Nat := env.microsAt 0 % U32
    match txLoop env fuel startUs 162 0 { s1 with clockReads := 1 } with
    | none => none
    | some s2 => some (rfOff s2)

/-- The events of one wait loop with deadline `targetUs`: only deadline
checks and servicing calls, every check against `targetUs`, the last event
being the check that found the deadline reached. -/
def IsWaitBlock (targetUs : Nat) (w : List Event) : Prop :=
  (∀ e ∈ w, e.isWait = true) ∧
  (∀ a b, Event.deadlineCheck a b ∈ w → b = targetUs) ∧
  ∃ pre nowUs, w = pre ++ [Event.deadlineCheck nowUs targetUs] ∧
    ¬ toInt32 (sub32 nowUs targetUs) < 0

/-- The clock assumption under which every wait loop ends: between two
consecutive calls of `micros()` the count advances by at least 1 and at
most `2 ^ 31` microseconds. -/
def ClockAdvances (env : Env) : Prop :=
  ∀ k, env.microsAt k < env.microsAt (k + 1) ∧
    env.microsAt (k + 1) ≤ env.microsAt k + 2147483648

/-- The event `setTone(symbols[i])` issues under settings `c`, session
offset `off` and symbol buffer `syms`. -/
def toneEvent (c : Config) (off : ℚ) (syms : List Nat) (i : Nat) : Event :=
  Event.set_freq (setToneWord ⟨c, off, syms⟩ ((syms.getD i 0 : Nat) : Int)) (activeClock c)

/-! ## Sample inputs -/

/-- The settings `loadSettings` leaves on an empty store, with transmission
switched on. -/
def sampleConfig : Config :=
  { CALLSIGN := "N0CALL", LOCATOR := "ZZ00", POWER_DBM := 10, bandIndex := 3,
    bandCalHz := [0, 0, 0, 600, 0, 0, 0, 0, 0, 0, 0, 0],
    bandClockOut := [0, 0, 0, 0, 0, 0, 0, 0, 0, 0, 0, 0],
    txEnabled := true, txEverySlot := false }

/-- Globals with the sample settings and a session offset of 42.3 Hz. -/
def sampleGlobals : Globals :=
  { cfg := sampleConfig, sessionFreqOffsetHz := 42.3, symbols := [] }

/-- A run with a synchronised wall clock, a clock read every 341.5 ms, and a
fourth servicing call that switches the band and turns transmission off. -/
def sampleEnv : Env :=
  { wallClock := 1700000000, randomDraw := 42,
    wspr_encode := fun _ _ _ => List.replicate 162 2,
    microsAt := fun k => 5 + 341500 * k,
    serve := fun k c => if k = 3 then { c with bandIndex := 5, txEnabled := false } else c,
    captivePortalActive := true }

/-- The sample surroundings with a wall clock that was never set. -/
def unsyncedEnv : Env := { sampleEnv with wallClock := 0 }

/-! ## Settings: validation, the save handler and loading -/

/-- The C library function `isspace` in the C locale. -/
def isspace (c : Char) : Bool := c.toNat = 32 || (9 ≤ c.toNat && c.toNat ≤ 13)

/-- The C library function `isdigit`. -/
def isdigit (c : Char) : Bool := 48 ≤ c.toNat && c.toNat ≤ 57

/-- The C library function `isalnum` in the C locale. -/
def isalnum (c : Char) : Bool :=
  isdigit c || (65 ≤ c.toNat && c.toNat ≤ 90) || (97 ≤ c.toNat && c.toNat ≤ 122)

/-- The C library function `toupper` in the C locale. -/
def toupper (c : Char) : Char :=
  if 97 ≤ c.toNat ∧ c.toNat ≤ 122 then Char.ofNat (c.toNat - 32) else c

/-- The method `String::trim` of the Arduino core on the characters of a
string: leading and trailing `isspace` characters are removed. -/
def trim (l : List Char) : List Char := (l.dropWhile isspace).rdropWhile isspace

/-- The method `String::toUpperCase` of the Arduino core. -/
def toUpperCase (l : List Char) : List Char := l.map toupper

/-- The characters of a string after `s.trim(); s.toUpperCase();`
(lines 1096, 1103, 1121-1122).  An Arduino `String` is a byte string; the
checks below accept ASCII characters only, for which bytes and characters
coincide. -/
def trimUpper (s : String) : List Char := toUpperCase (trim s.data)

/-- The function `isValidCallsign` (lines 1095-1100). -/
def isValidCallsign (c : String) : Bool :=
  let cs : List Char := trimUpper c
  if cs.length < 3 ∨ cs.length > 6 then false
  else cs.all isalnum

/-- The function `isValidLocator` (lines 1102-1109). -/
def isValidLocator (g : String) : Bool :=
  let gs : List Char := trimUpper g
  if gs.length ≠ 4 then false
  else
    match gs with
    | [g0, g1, g2, g3] =>
      65 ≤ g0.toNat && g0.toNat ≤ 82 && (65 ≤ g1.toNat && g1.toNat ≤ 82) &&
        isdigit g2 && isdigit g3
    | _ => false

/-- The enumerator `SI5351_CLK0` of the Si5351 library. -/
def SI5351_CLK0 : Nat := 0

/-- The enumerator `SI5351_CLK1` of the Si5351 library. -/
def SI5351_CLK1 : Nat := 1

/-- The enumerator `SI5351_CLK2` of the Si5351 library. -/
def SI5351_CLK2 : Nat := 2

/-- The arguments of a `POST /save_wspr` request as `handleSaveWspr` reads
them: the raw `call` and `loc` strings (empty when absent), the values
`toInt()` gives for `pwr` and `band`, the `txen` and `txall` strings when
present, and for each band the value `toDouble()` gives for `cal_i` and
`toInt()` gives for `clkout_i` when those arguments are present. -/
structure SaveWsprRequest where
  call : String
  loc : String
  pwr : Int
  band : Int
  txen : Option String
  txall : Option String
  cal : Nat → Option ℚ
  clkout : Nat → Option Int

/-- What a handler leaves behind: the settings, the settings written by
each call of `saveSettings`, and the reply sent. -/
structure HandlerResult where
  cfg : Config
  saved : List Config
  status : Nat
  body : String

/-- The calibration loop of `handleSaveWspr` (lines 1130-1135). -/
def parseCal (req : SaveWsprRequest) (cal : List ℚ) : List ℚ :=
  (List.range NUM_BANDS).foldl
    (fun acc i => match req.cal i with
      | some v => acc.set i v
      | none => acc) cal

/-- The clock-output loop of `handleSaveWspr` (lines 1138-1146). -/
def parseClkOut (req : SaveWsprRequest) (out : List Nat) : List Nat :=
  (List.range NUM_BANDS).foldl
    (fun acc i => match req.clkout i with
      | some clk =>
        if 0 ≤ clk ∧ clk ≤ 2 then
          acc.set i (if clk = 0 then SI5351_CLK0 else if clk = 1 then SI5351_CLK1
            else SI5351_CLK2)
        else acc
      | none => acc) out

/-- The function `handleSaveWspr` (lines 1111-1158) on the settings `c`. -/
def handleSaveWspr (req : SaveWsprRequest) (c : Config) : HandlerResult :=
  let newTxEn : Bool := match req.txen with
    | some v => decide (v = "1")
    | none => c.txEnabled
  let newTxAll : Bool := match req.txall with
    | some v => decide (v = "1")
    | none => c.txEverySlot
  let call : String := String.mk (trimUpper req.call)
  let loc : String := String.mk (trimUpper req.loc)
  if !isValidCallsign call then ⟨c, [], 400, "Bad callsign"⟩
  else if !isValidLocator loc then ⟨c, [], 400, "Bad locator (4 chars)"⟩
  else if req.pwr < 0 ∨ req.pwr > 60 then ⟨c, [], 400, "Bad power"⟩
  else if req.band < 0 ∨ req.band.toNat ≥ NUM_BANDS then ⟨c, [], 400, "Bad band"⟩
  else
    let c1 : Config :=
      { CALLSIGN := call, LOCATOR := loc, POWER_DBM := req.pwr.toNat % 256,
        bandIndex := req.band.toNat,
        bandCalHz := parseCal req c.bandCalHz,
        bandClockOut := parseClkOut req c.bandClockOut,
        txEnabled := newTxEn, txEverySlot := newTxAll }
    ⟨c1, [c1], 200, "OK"⟩

/-- The keys of the `esp32wspr` preferences namespace that `loadSettings`
reads into the settings; a key that is not stored is `none`. -/
structure Prefs where
  call : Option String
  loc : Option String
  pwr : Option Nat
  band : Option Nat
  cal : Nat → Option ℚ
  clkout : Nat → Option Nat
  txen : Option Bool
  txall : Option Bool

/-- A store with no key. -/
def emptyPrefs : Prefs :=
  { call := none, loc := none, pwr := none, band := none, cal := fun _ => none,
    clkout := fun _ => none, txen := none, txall := none }

/-- The constant `DEFAULT_CALL` (line 54). -/
def DEFAULT_CALL : String := "N0CALL"

/-- The constant `DEFAULT_LOC` (line 55). -/
def DEFAULT_LOC : String := "ZZ00"

/-- The constant `DEFAULT_PWR_DBM` (line 56). -/
def DEFAULT_PWR_DBM : Nat := 10

/-- The function `loadSettings` (lines 204-292, the branch for the ESP32)
on the fields of the settings. -/
def loadSettings (p : Prefs) : Config :=
  let cal0 : List ℚ := [0, 0, 0, 600, 0, 0, 0, 0, 0, 0, 0, 0]
  let out0 : List Nat := List.replicate NUM_BANDS SI5351_CLK0
  let band : Nat := (p.band.getD 3) % 256
  { CALLSIGN := p.call.getD DEFAULT_CALL,
    LOCATOR := p.loc.getD DEFAULT_LOC,
    POWER_DBM := (p.pwr.getD DEFAULT_PWR_DBM) % 256,
    bandIndex := if band ≥ NUM_BANDS then 3 else band,
    bandCalHz := (List.range NUM_BANDS).foldl
      (fun acc i => match p.cal i with
        | some v => acc.set i v
        | none => acc) cal0,
    bandClockOut := (List.range NUM_BANDS).foldl
      (fun acc i => match p.clkout i with
        | some v => acc.set i (v % 256)
        | none => acc) out0,
    txEnabled := p.txen.getD false,
    txEverySlot := p.txall.getD false }

/-- The settings globals as their initialisers leave them (lines 97-111). -/
def initialConfig : Config :=
  { CALLSIGN := "", LOCATOR := "", POWER_DBM := 0, bandIndex := 3,
    bandCalHz := List.replicate NUM_BANDS 0, bandClockOut := List.replicate NUM_BANDS 0,
    txEnabled := false, txEverySlot := false }

/-- A request that is accepted and moves the beacon to 20m on clock
output 1. -/
def bandSwitchRequest : SaveWsprRequest :=
  { call := " n0call ", loc := "io91", pwr := 10, band := 5,
    txen := some "0", txall := none,
    cal := fun i => if i = 5 then some 25 else none,
    clkout := fun i => if i = 5 then some 1 else none }

/-- A run in which the wait of symbol 0 makes four servicing calls, the
fourth handling `bandSwitchRequest`, and every later symbol finds its
deadline reached at its first check. -/
def bandSwitchEnv : Env :=
  { sampleEnv with
    microsAt := fun k => if k ≤ 4 then 100 * k else 683000 * (k - 4),
    serve := fun k c => if k = 3 then (handleSaveWspr bandSwitchRequest c).cfg else c }

/-- The commands `set_freq(_, _)`. -/
def Event.isFreqWrite : Event → Bool
  | .set_freq _ _ => true
  | _ => false

/-- The settings `c` after the first `n` calls of `server.handleClient()` of
a run. -/
def applyServes (env : Env) : Nat → Config → Config
  | 0, c => c
  | n + 1, c => env.serve n (applyServes env n c)

/-- The snapshot reading of the settings: in every run that returns, the
frequency write of every symbol `j` is the one computed from the settings
in force at arming. -/
def FrozenAtArm (env : Env) (fuel : Nat) (g : Globals) : Prop :=
  ∀ s, transmitWSPR env fuel g = some s → ∀ j, j < 162 →
    (s.trace.filter Event.isFreqWrite)[j]? =
      some (toneEvent g.cfg (env.randomDraw : ℚ)
        (env.wspr_encode g.cfg.CALLSIGN g.cfg.LOCATOR g.cfg.POWER_DBM) j)

/-- A run in which `random(0, 100)` returns 99 and every symbol is tone 3. -/
def topOffsetEnv : Env :=
  { sampleEnv with randomDraw := 99, wspr_encode := fun _ _ _ => List.replicate 162 3 }

/-- The sample globals on 160m, whose calibration is zero. -/
def band160Globals : Globals :=
  { sampleGlobals with cfg := { sampleConfig with bandIndex := 0 } }

/-! ## The slot schedule: lemmas -/

theorem slotIndexOf_nonneg (t : Int) (h : 0 ≤ t) : slotIndexOf t = t / 60 % 60 / 2 := by
  unfold slotIndexOf
  rw [Int.tdiv_eq_ediv h (by norm_num), Int.tmod_eq_emod (by omega) (by norm_num),
    Int.tdiv_eq_ediv (by omega) (by norm_num)]

theorem slot_even_iff (t : Int) (h : 0 ≤ t) (h120 : 120 ∣ t) :
    (slotIndexOf t).tmod 2 = 0 ↔ 240 ∣ t := by
  rw [slotIndexOf_nonneg t h, Int.tmod_eq_emod (by omega) (by norm_num)]
  omega

theorem slotLoop_succ (fuel : Nat) (t : Int) :
    slotLoop (fuel + 1) t
      = if (slotIndexOf t).tmod 2 = 0 then some t else slotLoop fuel (t + 120) := rfl

theorem computeNextTxEpoch_every_eq (fuel : Nat) (now : Int) (h : 0 ≤ now) :
    computeNextTxEpoch true fuel now = some ((now / 120 + 1) * 120) := by
  simp [computeNextTxEpoch, Int.tdiv_eq_ediv h]

theorem computeNextTxEpoch_alternate_eq (fuel : Nat) (now : Int) (h : 0 ≤ now)
    (hf : 2 ≤ fuel) :
    computeNextTxEpoch false fuel now = some ((now / 240 + 1) * 240) := by
  obtain ⟨f, rfl⟩ : ∃ f, fuel = f + 2 := ⟨fuel - 2, by omega⟩
  have h0 : now.tdiv 120 = now / 120 := Int.tdiv_eq_ediv h (by norm_num)
  simp only [computeNextTxEpoch, h0, Bool.not_false, if_true]
  have ht : (0 : Int) ≤ (now / 120 + 1) * 120 := by omega
  have hd : (120 : Int) ∣ (now / 120 + 1) * 120 := Dvd.intro_left _ rfl
  rw [slotLoop_succ]
  by_cases hev : (240 : Int) ∣ (now / 120 + 1) * 120
  · rw [if_pos ((slot_even_iff _ ht hd).2 hev)]
    congr 1
    omega
  · rw [if_neg (fun hc => hev ((slot_even_iff _ ht hd).1 hc)), slotLoop_succ]
    have hd2 : (120 : Int) ∣ (now / 120 + 1) * 120 + 120 := by omega
    have hev2 : (240 : Int) ∣ (now / 120 + 1) * 120 + 120 := by omega
    rw [if_pos ((slot_even_iff _ (by omega) hd2).2 hev2)]
    congr 1
    omega

/-! ## The transmit sequencer: lemmas -/

theorem serviceOnce_trace (env : Env) (s : TxState) :
    ∃ w, (serviceOnce env s).trace = s.trace ++ w ∧ (∀ e ∈ w, e.isWait = true) ∧
      (∀ a b, Event.deadlineCheck a b ∉ w) := by
  unfold serviceOnce
  by_cases hc : env.captivePortalActive = true
  · refine ⟨[Event.handleClient, Event.processNextRequest, Event.delay 1], ?_, ?_, ?_⟩
    · simp [hc]
    · intro e he
      simp at he
      rcases he with rfl | rfl | rfl <;> rfl
    · intro a b hab
      simp at hab
  · refine ⟨[Event.handleClient, Event.delay 1], ?_, ?_, ?_⟩
    · simp [hc]
    · intro e he
      simp at he
      rcases he with rfl | rfl <;> rfl
    · intro a b hab
      simp at hab

theorem serviceOnce_frame (env : Env) (s : TxState) :
    (serviceOnce env s).g.sessionFreqOffsetHz = s.g.sessionFreqOffsetHz ∧
    (serviceOnce env s).g.symbols = s.g.symbols ∧
    (serviceOnce env s).clockReads = s.clockReads := by
  unfold serviceOnce
  by_cases hc : env.captivePortalActive = true <;> simp [hc]

theorem waitLoop_succ (env : Env) (targetUs fuel : Nat) (s : TxState) :
    waitLoop env targetUs (fuel + 1) s =
      if toInt32 (sub32 (env.microsAt s.clockReads % U32) targetUs) < 0 then
        waitLoop env targetUs fuel (serviceOnce env
          { s with clockReads := s.clockReads + 1,
                   trace := s.trace ++
                     [Event.deadlineCheck (env.microsAt s.clockReads % U32) targetUs] })
      else some { s with clockReads := s.clockReads + 1,
                         trace := s.trace ++
                           [Event.deadlineCheck (env.microsAt s.clockReads % U32) targetUs] } :=
  rfl

theorem waitLoop_spec (env : Env) (targetUs : Nat) :
    ∀ (fuel : Nat) (s s' : TxState), waitLoop env targetUs fuel s = some s' →
      ∃ w, s'.trace = s.trace ++ w ∧ IsWaitBlock targetUs w ∧
        s'.g.sessionFreqOffsetHz = s.g.sessionFreqOffsetHz ∧
        s'.g.symbols = s.g.symbols := by
  intro fuel
  induction fuel with
  | zero => intro s s' h; simp [waitLoop] at h
  | succ fuel ih =>
    intro s s' h
    rw [waitLoop_succ] at h
    split at h
    · obtain ⟨w, hw, ⟨hall, htgt, pre, nowUs, hpre, hge⟩, hoff, hsym⟩ := ih _ _ h
      obtain ⟨v, hv, hvall, hvno⟩ := serviceOnce_trace env
        { s with clockReads := s.clockReads + 1,
                 trace := s.trace ++
                   [Event.deadlineCheck (env.microsAt s.clockReads % U32) targetUs] }
      obtain ⟨f1, f2, _⟩ := serviceOnce_frame env
        { s with clockReads := s.clockReads + 1,
                 trace := s.trace ++
                   [Event.deadlineCheck (env.microsAt s.clockReads % U32) targetUs] }
      refine ⟨Event.deadlineCheck (env.microsAt s.clockReads % U32) targetUs :: (v ++ w),
        ?_, ⟨?_, ?_, ?_⟩, ?_, ?_⟩
      · rw [hw, hv]; simp
      · intro e he
        simp only [List.mem_cons, List.mem_append] at he
        rcases he with rfl | he | he
        · rfl
        · exact hvall e he
        · exact hall e he
      · intro a b hab
        simp only [List.mem_cons, List.mem_append] at hab
        rcases hab with hab | hab | hab
        · injection hab with _ hb
        · exact absurd hab (hvno a b)
        · exact htgt a b hab
      · refine ⟨Event.deadlineCheck (env.microsAt s.clockReads % U32) targetUs :: (v ++ pre),
          nowUs, ?_, hge⟩
        rw [hpre]; simp
      · rw [hoff, f1]
      · rw [hsym, f2]
    · rename_i hlt
      injection h with h
      subst h
      refine ⟨[Event.deadlineCheck (env.microsAt s.clockReads % U32) targetUs], rfl,
        ⟨?_, ?_, ?_⟩, rfl, rfl⟩
      · intro e he
        simp at he
        subst he
        rfl
      · intro a b hab
        simp at hab
        exact hab.2
      · exact ⟨[], _, rfl, hlt⟩

theorem txLoop_succ (env : Env) (fuel startUs n i : Nat) (s : TxState) :
    txLoop env fuel startUs (n + 1) i s =
      match waitLoop env (targetUsOf startUs i) fuel
          (setTone ((s.g.symbols.getD i 0 : Nat) : Int) s) with
      | none => none
      | some s2 => txLoop env fuel startUs n (i + 1) s2 := rfl

theorem txLoop_spec (env : Env) (fuel startUs : Nat) :
    ∀ (n i : Nat) (s s' : TxState), txLoop env fuel startUs n i s = some s' →
      ∃ blocks : List (List Event), blocks.length = n ∧
        s'.trace = s.trace ++ blocks.flatten ∧
        s'.g.sessionFreqOffsetHz = s.g.sessionFreqOffsetHz ∧
        s'.g.symbols = s.g.symbols ∧
        ∀ j, j < n → ∃ (c : Config) (w : List Event),
          blocks[j]? = some (toneEvent c s.g.sessionFreqOffsetHz s.g.symbols (i + j) :: w) ∧
          IsWaitBlock (targetUsOf startUs (i + j)) w ∧ (j = 0 → c = s.g.cfg) := by
  intro n
  induction n with
  | zero =>
    intro i s s' h
    simp only [txLoop] at h
    injection h with h
    subst h
    exact ⟨[], rfl, by simp, rfl, rfl, fun j hj => absurd hj (Nat.not_lt_zero j)⟩
  | succ n ih =>
    intro i s s' h
    rw [txLoop_succ] at h
    cases hw : waitLoop env (targetUsOf startUs i) fuel
        (setTone ((s.g.symbols.getD i 0 : Nat) : Int) s) with
    | none => rw [hw] at h; simp at h
    | some s2 =>
      rw [hw] at h
      simp only at h
      obtain ⟨w, hwt, hblk, hoff, hsym⟩ := waitLoop_spec env _ _ _ _ hw
      obtain ⟨blocks, hlen, htr, hoff2, hsym2, hall⟩ := ih _ _ _ h
      have hoff1 : s2.g.sessionFreqOffsetHz = s.g.sessionFreqOffsetHz := hoff
      have hsym1 : s2.g.symbols = s.g.symbols := hsym
      refine ⟨(toneEvent s.g.cfg s.g.sessionFreqOffsetHz s.g.symbols i :: w) :: blocks,
        by simp [hlen], ?_, by rw [hoff2, hoff1], by rw [hsym2, hsym1], ?_⟩
      · rw [htr, hwt]
        simp [setTone, toneEvent]
      · intro j hj
        cases j with
        | zero => exact ⟨s.g.cfg, w, by simp, by simpa using hblk, fun _ => rfl⟩
        | succ j =>
          obtain ⟨c, w', hb, hwb, _⟩ := hall j (by omega)
          refine ⟨c, w', ?_, ?_, fun hc => absurd hc (Nat.succ_ne_zero j)⟩
          · rw [List.getElem?_cons_succ, hb, hoff1, hsym1]
            congr 3
            omega
          · have : i + (j + 1) = i + 1 + j := by omega
            rw [this]
            exact hwb

theorem waitLoop_terminates (env : Env) (hclk : ClockAdvances env) (targetUs : Nat) :
    ∀ (fuel : Nat) (s : TxState),
      (sub32 (env.microsAt s.clockReads % U32) targetUs < 2147483648 ∧ 1 ≤ fuel) ∨
        U32 - sub32 (env.microsAt s.clockReads % U32) targetUs < fuel →
      ∃ s', waitLoop env targetUs fuel s = some s' := by
  intro fuel
  induction fuel with
  | zero =>
    intro s h
    rcases h with h | h <;> omega
  | succ fuel ih =>
    intro s h
    rw [waitLoop_succ]
    by_cases hlt : toInt32 (sub32 (env.microsAt s.clockReads % U32) targetUs) < 0
    · rw [if_pos hlt]
      apply ih
      rw [(serviceOnce_frame env _).2.2]
      obtain ⟨h1, h2⟩ := hclk s.clockReads
      simp only [toInt32, sub32, U32] at hlt h ⊢
      split at hlt
      · omega
      · omega
    · rw [if_neg hlt]
      exact ⟨_, rfl⟩

theorem txLoop_terminates (env : Env) (hclk : ClockAdvances env) (fuel startUs : Nat)
    (hf : 2147483648 < fuel) :
    ∀ (n i : Nat) (s : TxState), ∃ s', txLoop env fuel startUs n i s = some s' := by
  intro n
  induction n with
  | zero => intro i s; exact ⟨s, rfl⟩
  | succ n ih =>
    intro i s
    rw [txLoop_succ]
    obtain ⟨s2, hs2⟩ := waitLoop_terminates env hclk (targetUsOf startUs i) fuel
      (setTone ((s.g.symbols.getD i 0 : Nat) : Int) s) (by
        simp only [sub32, U32]
        omega)
    rw [hs2]
    exact ih _ _

theorem transmitWSPR_terminates (env : Env) (hclk : ClockAdvances env) (fuel : Nat)
    (hf : 2147483648 < fuel) (g : Globals) :
    ∃ s, transmitWSPR env fuel g = some s := by
  unfold transmitWSPR
  split
  · exact ⟨_, rfl⟩
  · split
    · exact ⟨_, rfl⟩
    · obtain ⟨s2, hs2⟩ := txLoop_terminates env hclk fuel (env.microsAt 0 % U32) hf 162 0
        { rfOn ⟨armGlobals env g, 0, 0, []⟩ with clockReads := 1 }
      simp only [hs2]
      exact ⟨_, rfl⟩

theorem transmitWSPR_armed (env : Env) (fuel : Nat) (g : Globals)
    (hen : g.cfg.txEnabled = true) (hv : 1000000000 < env.wallClock) (s : TxState)
    (h : transmitWSPR env fuel g = some s) :
    ∃ s2, txLoop env fuel (env.microsAt 0 % U32) 162 0
        { rfOn ⟨armGlobals env g, 0, 0, []⟩ with clockReads := 1 } = some s2 ∧
      s = rfOff s2 := by
  have hv2 : timeValid env.wallClock = true := by simp [timeValid, hv]
  simp only [transmitWSPR, hen, hv2, Bool.not_true, Bool.false_eq_true, if_false] at h
  cases hl : txLoop env fuel (env.microsAt 0 % U32) 162 0
      { rfOn ⟨armGlobals env g, 0, 0, []⟩ with clockReads := 1 } with
  | none => rw [hl] at h; simp at h
  | some s2 =>
    rw [hl] at h
    simp only at h
    injection h with h
    exact ⟨s2, rfl, h.symm⟩

theorem isWait_not_output (e : Event) (h : e.isWait = true) :
    e.isDisable = false ∧ e.isEnable = false := by
  cases e <;> simp_all [Event.isWait, Event.isDisable, Event.isEnable]

/-- The shape of the trace of an armed run that returns. -/
theorem armed_trace (env : Env) (fuel : Nat) (g : Globals)
    (hen : g.cfg.txEnabled = true) (hv : 1000000000 < env.wallClock) (s : TxState)
    (h : transmitWSPR env fuel g = some s) :
    ∃ blocks : List (List Event), blocks.length = 162 ∧
      s.trace = Event.output_enable (activeClock g.cfg) 1 ::
        (blocks.flatten ++ [Event.output_enable (activeClock s.g.cfg) 0,
                            Event.set_freq 0 (activeClock s.g.cfg)]) ∧
      s.g.sessionFreqOffsetHz = (env.randomDraw : ℚ) ∧
      s.g.symbols = env.wspr_encode g.cfg.CALLSIGN g.cfg.LOCATOR g.cfg.POWER_DBM ∧
      ∀ j, j < 162 → ∃ (c : Config) (w : List Event),
        blocks[j]? = some (toneEvent c (env.randomDraw : ℚ)
          (env.wspr_encode g.cfg.CALLSIGN g.cfg.LOCATOR g.cfg.POWER_DBM) j :: w) ∧
        IsWaitBlock (targetUsOf (env.microsAt 0 % U32) j) w ∧ (j = 0 → c = g.cfg) := by
  obtain ⟨s2, hl, rfl⟩ := transmitWSPR_armed env fuel g hen hv s h
  obtain ⟨blocks, hlen, htr, hoff, hsym, hall⟩ := txLoop_spec env fuel _ _ _ _ _ hl
  refine ⟨blocks, hlen, ?_, ?_, ?_, ?_⟩
  · simp [rfOff, htr, rfOn, armGlobals]
  · simpa [rfOff, rfOn, armGlobals] using hoff
  · simpa [rfOff, rfOn, armGlobals] using hsym
  · intro j hj
    obtain ⟨c, w, hb, hw, hc⟩ := hall j hj
    refine ⟨c, w, ?_, ?_, ?_⟩
    · simpa [rfOn, armGlobals] using hb
    · simpa using hw
    · simpa [rfOn, armGlobals] using hc

/-- No block of the symbol loop holds an `output_enable` command. -/
theorem blocks_no_output (blocks : List (List Event)) (n : Nat) (hlen : blocks.length = n)
    (hall : ∀ j, j < n → ∃ (f clk : Nat) (w : List Event),
      blocks[j]? = some (Event.set_freq f clk :: w) ∧ ∀ e ∈ w, e.isWait = true) :
    ∀ e ∈ blocks.flatten, e.isDisable = false ∧ e.isEnable = false := by
  intro e he
  obtain ⟨b, hb, heb⟩ := List.mem_flatten.1 he
  obtain ⟨j, hj, hjb⟩ := List.getElem_of_mem hb
  obtain ⟨f, clk, w, hw, hwait⟩ := hall j (by omega)
  rw [List.getElem?_eq_getElem hj, hjb] at hw
  injection hw with hw
  subst hw
  simp only [List.mem_cons] at heb
  rcases heb with rfl | heb
  · exact ⟨rfl, rfl⟩
  · exact isWait_not_output e (hwait e heb)

/-- The sample run satisfies the clock assumption. -/
theorem sampleEnv_clock : ClockAdvances sampleEnv := by
  intro k
  simp only [sampleEnv]
  omega

/-! ## The claims -/

/-- C1: with `txEverySlot = true`, for every `now >= 0` the result of
`computeNextTxEpoch(now)` is the smallest multiple of 120 strictly greater
than `now`; when `now` is itself a multiple of 120 it is `now + 120`. -/
theorem computeNextTxEpoch_everySlot_least (fuel : Nat) (now : Int) (h : 0 ≤ now) :
    ∃ t : Int, computeNextTxEpoch true fuel now = some t ∧ 120 ∣ t ∧ now < t ∧
      (∀ m : Int, 120 ∣ m → now < m → t ≤ m) ∧ (120 ∣ now → t = now + 120) := by
  refine ⟨_, computeNextTxEpoch_every_eq fuel now h, Dvd.intro_left _ rfl, by omega, ?_, ?_⟩
  · intro m hm hlt
    omega
  · intro hd
    omega

/-- C1 at `now = 240`, a slot boundary: the result is 360, not 240. -/
theorem computeNextTxEpoch_everySlot_least_witness :
    computeNextTxEpoch true 0 240 = some 360 := by
  obtain ⟨t, ht, _, _, _, hb⟩ := computeNextTxEpoch_everySlot_least 0 240 (by decide)
  rw [ht, hb (by decide)]
  rfl

/-- C2: with `txEverySlot = false`, for every `now >= 0` the call returns
(two iterations of its loop suffice) a multiple of 120 that is strictly
greater than `now` and whose slot index `((t / 60) % 60) / 2` is even. -/
theorem computeNextTxEpoch_alternate_even (fuel : Nat) (now : Int) (h : 0 ≤ now)
    (hf : 2 ≤ fuel) :
    ∃ t : Int, computeNextTxEpoch false fuel now = some t ∧ 120 ∣ t ∧ now < t ∧
      (((t.tdiv 60).tmod 60).tdiv 2).tmod 2 = 0 := by
  refine ⟨_, computeNextTxEpoch_alternate_eq fuel now h hf, by omega, by omega, ?_⟩
  exact (slot_even_iff _ (by omega) (by omega)).2 (Dvd.intro_left _ rfl)

/-- C2 at `now = 1700000000` with fuel 2. -/
theorem computeNextTxEpoch_alternate_even_witness :
    ∃ t : Int, computeNextTxEpoch false 2 1700000000 = some t ∧ 120 ∣ t ∧ 1700000000 < t ∧
      (((t.tdiv 60).tmod 60).tdiv 2).tmod 2 = 0 :=
  computeNextTxEpoch_alternate_even 2 1700000000 (by decide) (by decide)

/-- C3: with `txEverySlot = false`, for every `now >= 0` the result is the
earliest qualifying boundary: no multiple of 120 with an even slot index lies
strictly between `now` and it; it is the smallest multiple of 240 strictly
greater than `now`; and the slot computed from it is exactly 240 s later. -/
theorem computeNextTxEpoch_alternate_earliest (fuel : Nat) (now : Int) (h : 0 ≤ now)
    (hf : 2 ≤ fuel) :
    ∃ t : Int, computeNextTxEpoch false fuel now = some t ∧
      (∀ m : Int, 120 ∣ m → now < m → m < t → (slotIndexOf m).tmod 2 ≠ 0) ∧
      240 ∣ t ∧ now < t ∧ (∀ m : Int, 240 ∣ m → now < m → t ≤ m) ∧
      computeNextTxEpoch false fuel t = some (t + 240) := by
  refine ⟨_, computeNextTxEpoch_alternate_eq fuel now h hf, ?_, Dvd.intro_left _ rfl,
    by omega, ?_, ?_⟩
  · intro m hm hlt hmt hc
    have := (slot_even_iff m (by omega) hm).1 hc
    omega
  · intro m hm hlt
    omega
  · rw [computeNextTxEpoch_alternate_eq fuel _ (by omega) hf]
    congr 1
    omega

/-- C3 at `now = 0`: the result is 240, and the slot after it is 480. -/
theorem computeNextTxEpoch_alternate_earliest_witness :
    computeNextTxEpoch false 2 0 = some 240 ∧ computeNextTxEpoch false 2 240 = some 480 := by
  obtain ⟨t, ht, _, hdvd, hpos, hmin, hnext⟩ :=
    computeNextTxEpoch_alternate_earliest 2 0 (by decide) (by decide)
  have h240 : t = 240 := by
    have := hmin 240 (by decide) (by decide)
    omega
  subst h240
  exact ⟨ht, hnext⟩

/-- C4: when `txEnabled` is false or the wall clock is not valid (not above
1,000,000,000), `transmitWSPR` returns at once: its trace is empty (no
RF enable, no frequency write, no servicing) and the globals are unchanged. -/
theorem transmitWSPR_declines (env : Env) (fuel : Nat) (g : Globals)
    (h : g.cfg.txEnabled = false ∨ ¬ 1000000000 < env.wallClock) :
    transmitWSPR env fuel g = some ⟨g, 0, 0, []⟩ := by
  unfold transmitWSPR
  rcases h with h | h
  · simp [h]
  · have : timeValid env.wallClock = false := by simp [timeValid, h]
    simp [this]

/-- C4 on a run with an unset wall clock and on a run with `txEnabled` off. -/
theorem transmitWSPR_declines_witness :
    transmitWSPR unsyncedEnv 0 sampleGlobals = some ⟨sampleGlobals, 0, 0, []⟩ ∧
    transmitWSPR sampleEnv 0 { sampleGlobals with cfg := { sampleConfig with txEnabled := false } }
      = some ⟨{ sampleGlobals with cfg := { sampleConfig with txEnabled := false } }, 0, 0, []⟩ :=
  ⟨transmitWSPR_declines unsyncedEnv 0 sampleGlobals (Or.inr (by decide)),
   transmitWSPR_declines sampleEnv 0 _ (Or.inl rfl)⟩

/-- C5: for every band `b` of the table, calibration, session offset and tone
index, the frequency `setTone` computes is
`dial_hz(b) + 100 + calibration + sessionOffset + tone * 1.4648`. -/
theorem setToneHz_formula (g : Globals) (b : Nat) (cal off : ℚ) (tone : Int)
    (hb : b < BANDS.length)
    (hband : g.cfg.bandIndex = b) (hcal : g.cfg.bandCalHz[b]? = some cal)
    (hoff : g.sessionFreqOffsetHz = off) :
    setToneHz g tone = (BANDS[b]).dial_hz + 100 + cal + off + (tone : ℚ) * 1.4648 := by
  have hd : dialHz b = (BANDS[b]).dial_hz := by
    simp [dialHz, List.getD, List.getElem?_eq_getElem hb]
  simp [setToneHz, wsprBaseHz, hband, hd, List.getD, hcal, hoff, TONE_SPACING_HZ]

/-- C5 on 40m (dial 7,038,600 Hz), calibration +600, session offset 42.3,
tone 2: the frequency is 7,039,345.2296 Hz. -/
theorem setToneHz_formula_witness : setToneHz sampleGlobals 2 = 7039345.2296 := by
  rw [setToneHz_formula sampleGlobals 3 600 42.3 2 (by decide) rfl rfl rfl]
  norm_num [BANDS]

/-- C6: with band, calibration and session offset fixed, the frequency
`setTone` computes grows by exactly 1.4648 Hz from tone index `k` to `k + 1`,
for every `k` (so for `k` in 0, 1, 2). -/
theorem setToneHz_spacing (g : Globals) (k : Int) :
    setToneHz g (k + 1) - setToneHz g k = 1.4648 := by
  simp only [setToneHz, TONE_SPACING_HZ]
  push_cast
  ring

/-- C8: in an armed run, the trace after the RF enable is 162 consecutive
blocks followed by the two commands of `rfOff`; block `i` starts with the
frequency write of symbol `i` and continues with nothing but the deadline
checks (all against symbol `i`'s deadline) and servicing calls of its wait,
ending with the check that found the deadline reached.  So nothing stands
between the end of the wait of symbol `i - 1` and the write of symbol `i`.
Under the clock assumption the run does return. -/
theorem transmitWSPR_write_before_wait (env : Env) (fuel : Nat) (g : Globals)
    (hen : g.cfg.txEnabled = true) (hv : 1000000000 < env.wallClock) :
    (∀ s, transmitWSPR env fuel g = some s →
      ∃ blocks : List (List Event), blocks.length = 162 ∧
        s.trace = Event.output_enable (activeClock g.cfg) 1 ::
          (blocks.flatten ++ [Event.output_enable (activeClock s.g.cfg) 0,
                              Event.set_freq 0 (activeClock s.g.cfg)]) ∧
        ∀ i, i < 162 → ∃ (f clk : Nat) (w : List Event),
          blocks[i]? = some (Event.set_freq f clk :: w) ∧
          IsWaitBlock (targetUsOf (env.microsAt 0 % U32) i) w) ∧
    (ClockAdvances env → 2147483648 < fuel → ∃ s, transmitWSPR env fuel g = some s) := by
  refine ⟨fun s h => ?_, fun hclk hf => transmitWSPR_terminates env hclk fuel hf g⟩
  obtain ⟨blocks, hlen, htr, _, _, hall⟩ := armed_trace env fuel g hen hv s h
  refine ⟨blocks, hlen, htr, fun i hi => ?_⟩
  obtain ⟨c, w, hb, hw, _⟩ := hall i hi
  exact ⟨_, _, w, hb, hw⟩

/-- C8 on the sample run, whose servicing switches the band mid-session. -/
theorem transmitWSPR_write_before_wait_witness :
    ∃ s, transmitWSPR sampleEnv 2147483649 sampleGlobals = some s ∧
      ∃ blocks : List (List Event), blocks.length = 162 ∧
        s.trace = Event.output_enable 0 1 ::
          (blocks.flatten ++ [Event.output_enable (activeClock s.g.cfg) 0,
                              Event.set_freq 0 (activeClock s.g.cfg)]) ∧
        ∀ i, i < 162 → ∃ (f clk : Nat) (w : List Event),
          blocks[i]? = some (Event.set_freq f clk :: w) ∧
          IsWaitBlock (targetUsOf 5 i) w := by
  have h := transmitWSPR_write_before_wait sampleEnv 2147483649 sampleGlobals rfl (by decide)
  obtain ⟨s, hs⟩ := h.2 sampleEnv_clock (by decide)
  exact ⟨s, hs, h.1 s hs⟩

/-- C9: in an armed run the first event of the trace is
`output_enable(clk, 1)` on the active band's clock output and the second is
the frequency write of symbol 0, computed from the settings at arming; so
no frequency command precedes the RF enable.  Under the clock assumption
the run does return. -/
theorem transmitWSPR_enable_first (env : Env) (fuel : Nat) (g : Globals)
    (hen : g.cfg.txEnabled = true) (hv : 1000000000 < env.wallClock) :
    (∀ s, transmitWSPR env fuel g = some s →
      ∃ rest : List Event,
        s.trace = Event.output_enable (activeClock g.cfg) 1 ::
          toneEvent g.cfg (env.randomDraw : ℚ)
            (env.wspr_encode g.cfg.CALLSIGN g.cfg.LOCATOR g.cfg.POWER_DBM) 0 :: rest) ∧
    (ClockAdvances env → 2147483648 < fuel → ∃ s, transmitWSPR env fuel g = some s) := by
  refine ⟨fun s h => ?_, fun hclk hf => transmitWSPR_terminates env hclk fuel hf g⟩
  obtain ⟨blocks, hlen, htr, _, _, hall⟩ := armed_trace env fuel g hen hv s h
  obtain ⟨c, w, hb, _, hc⟩ := hall 0 (by decide)
  rw [hc rfl] at hb
  cases blocks with
  | nil => simp at hlen
  | cons b tl =>
    simp only [List.getElem?_cons_zero, Option.some.injEq] at hb
    subst hb
    exact ⟨w ++ (tl.flatten ++ [Event.output_enable (activeClock s.g.cfg) 0,
      Event.set_freq 0 (activeClock s.g.cfg)]), by rw [htr]; simp⟩

/-- C9 on the sample run: the trace starts with the enable on output 0 and
the write of 7,039,344.92 Hz. -/
theorem transmitWSPR_enable_first_witness :
    ∃ s rest, transmitWSPR sampleEnv 2147483649 sampleGlobals = some s ∧
      s.trace = Event.output_enable 0 1 :: Event.set_freq 703934492 0 :: rest := by
  have h := transmitWSPR_enable_first sampleEnv 2147483649 sampleGlobals rfl (by decide)
  obtain ⟨s, hs⟩ := h.2 sampleEnv_clock (by decide)
  obtain ⟨rest, hr⟩ := h.1 s hs
  have hw : toneEvent sampleGlobals.cfg ((sampleEnv.randomDraw : Int) : ℚ)
      (sampleEnv.wspr_encode sampleGlobals.cfg.CALLSIGN sampleGlobals.cfg.LOCATOR
        sampleGlobals.cfg.POWER_DBM) 0 = Event.set_freq 703934492 0 := by decide!
  exact ⟨s, rest, hs, by rw [hr, hw]; rfl⟩

/-- C10: in an armed run, whatever the servicing calls do to the settings,
the trace is the RF enable, the 162 blocks, and then exactly the two
commands of `rfOff`: `output_enable(clk, 0)` followed by its own
`set_freq(0, clk)`.  The last block is the write and wait of symbol 161, the
whole trace holds exactly one `output_enable(_, 0)`, and neither an RF enable
nor a write from `setTone` follows it.  Under the clock assumption the run
does return. -/
theorem transmitWSPR_ends_disabled (env : Env) (fuel : Nat) (g : Globals)
    (hen : g.cfg.txEnabled = true) (hv : 1000000000 < env.wallClock) :
    (∀ s, transmitWSPR env fuel g = some s →
      ∃ (blocks : List (List Event)) (c : Config) (w : List Event),
        blocks.length = 162 ∧
        s.trace = (Event.output_enable (activeClock g.cfg) 1 :: blocks.flatten) ++
          [Event.output_enable (activeClock s.g.cfg) 0,
           Event.set_freq 0 (activeClock s.g.cfg)] ∧
        blocks[161]? = some (toneEvent c (env.randomDraw : ℚ)
          (env.wspr_encode g.cfg.CALLSIGN g.cfg.LOCATOR g.cfg.POWER_DBM) 161 :: w) ∧
        IsWaitBlock (targetUsOf (env.microsAt 0 % U32) 161) w ∧
        (s.trace.filter Event.isDisable).length = 1) ∧
    (ClockAdvances env → 2147483648 < fuel → ∃ s, transmitWSPR env fuel g = some s) := by
  refine ⟨fun s h => ?_, fun hclk hf => transmitWSPR_terminates env hclk fuel hf g⟩
  obtain ⟨blocks, hlen, htr, _, _, hall⟩ := armed_trace env fuel g hen hv s h
  obtain ⟨c, w, hb, hw, _⟩ := hall 161 (by decide)
  refine ⟨blocks, c, w, hlen, by rw [htr]; simp, hb, hw, ?_⟩
  have hno : blocks.flatten.filter Event.isDisable = [] := by
    rw [List.filter_eq_nil_iff]
    intro e he
    have := (blocks_no_output blocks 162 hlen (fun j hj => by
      obtain ⟨c, w, hb, hw, _⟩ := hall j hj
      exact ⟨_, _, w, hb, hw.1⟩) e he).1
    simp [this]
  rw [htr]
  simp [List.filter_cons, List.filter_append, hno, Event.isDisable]

/-- C10 on the sample run, whose servicing switches the band and turns
`txEnabled` off mid-session. -/
theorem transmitWSPR_ends_disabled_witness :
    ∃ s pre, transmitWSPR sampleEnv 2147483649 sampleGlobals = some s ∧
      s.trace = pre ++ [Event.output_enable (activeClock s.g.cfg) 0,
                        Event.set_freq 0 (activeClock s.g.cfg)] ∧
      (s.trace.filter Event.isDisable).length = 1 := by
  have h := transmitWSPR_ends_disabled sampleEnv 2147483649 sampleGlobals rfl (by decide)
  obtain ⟨s, hs⟩ := h.2 sampleEnv_clock (by decide)
  obtain ⟨blocks, c, w, _, htr, _, _, hcount⟩ := h.1 s hs
  exact ⟨s, _, hs, htr, hcount⟩

/-! ## The transmit sequencer: live settings and timing -/

theorem isWait_not_freqWrite (e : Event) (h : e.isWait = true) : e.isFreqWrite = false := by
  cases e <;> simp_all [Event.isWait, Event.isFreqWrite]

theorem waitBlock_no_freqWrite (targetUs : Nat) (w : List Event) (h : IsWaitBlock targetUs w) :
    w.filter Event.isFreqWrite = [] := by
  rw [List.filter_eq_nil_iff]
  intro e he
  simp [isWait_not_freqWrite e (h.1 e he)]

theorem serviceOnce_live (env : Env) (c0 : Config) (s : TxState)
    (h : s.g.cfg = applyServes env s.served c0) :
    (serviceOnce env s).g.cfg = applyServes env (serviceOnce env s).served c0 ∧
    (serviceOnce env s).served = s.served + 1 := by
  unfold serviceOnce
  by_cases hc : env.captivePortalActive = true <;> simp [hc, applyServes, h]

theorem waitLoop_live (env : Env) (targetUs : Nat) (c0 : Config) :
    ∀ (fuel : Nat) (s s' : TxState), s.g.cfg = applyServes env s.served c0 →
      waitLoop env targetUs fuel s = some s' →
      s'.g.cfg = applyServes env s'.served c0 ∧ s.served ≤ s'.served ∧
      s.clockReads < s'.clockReads ∧
      ¬ toInt32 (sub32 (env.microsAt (s'.clockReads - 1) % U32) targetUs) < 0 := by
  intro fuel
  induction fuel with
  | zero => intro s s' _ h; simp [waitLoop] at h
  | succ fuel ih =>
    intro s s' hinv h
    rw [waitLoop_succ] at h
    split at h
    · have hs := serviceOnce_live env c0
        { s with clockReads := s.clockReads + 1,
                 trace := s.trace ++
                   [Event.deadlineCheck (env.microsAt s.clockReads % U32) targetUs] } hinv
      have hf := serviceOnce_frame env
        { s with clockReads := s.clockReads + 1,
                 trace := s.trace ++
                   [Event.deadlineCheck (env.microsAt s.clockReads % U32) targetUs] }
      obtain ⟨h1, h2, h3, h4⟩ := ih _ _ hs.1 h
      rw [hs.2] at h2
      rw [hf.2.2] at h3
      simp only at h2 h3
      exact ⟨h1, by omega, by omega, h4⟩
    · rename_i hlt
      injection h with h
      subst h
      exact ⟨hinv, Nat.le_refl _, Nat.lt_succ_self _, by simpa using hlt⟩

theorem waitLoop_clock (env : Env) (targetUs : Nat) :
    ∀ (fuel : Nat) (s s' : TxState), waitLoop env targetUs fuel s = some s' →
      s.clockReads < s'.clockReads ∧
      ¬ toInt32 (sub32 (env.microsAt (s'.clockReads - 1) % U32) targetUs) < 0 := by
  intro fuel
  induction fuel with
  | zero => intro s s' h; simp [waitLoop] at h
  | succ fuel ih =>
    intro s s' h
    rw [waitLoop_succ] at h
    split at h
    · obtain ⟨h3, h4⟩ := ih _ _ h
      rw [(serviceOnce_frame env _).2.2] at h3
      simp only at h3
      exact ⟨by omega, h4⟩
    · rename_i hlt
      injection h with h
      subst h
      exact ⟨Nat.lt_succ_self _, by simpa using hlt⟩

theorem txLoop_last_check (env : Env) (fuel startUs : Nat) :
    ∀ (n i : Nat) (s s' : TxState), txLoop env fuel startUs (n + 1) i s = some s' →
      s.clockReads < s'.clockReads ∧
      ¬ toInt32 (sub32 (env.microsAt (s'.clockReads - 1) % U32)
          (targetUsOf startUs (i + n))) < 0 := by
  intro n
  induction n with
  | zero =>
    intro i s s' h
    rw [txLoop_succ] at h
    cases hw : waitLoop env (targetUsOf startUs i) fuel
        (setTone ((s.g.symbols.getD i 0 : Nat) : Int) s) with
    | none => rw [hw] at h; simp at h
    | some s2 =>
      rw [hw] at h
      simp only [txLoop] at h
      injection h with h
      subst h
      exact waitLoop_clock env (targetUsOf startUs i) fuel
        (setTone ((s.g.symbols.getD i 0 : Nat) : Int) s) _ hw
  | succ n ih =>
    intro i s s' h
    rw [txLoop_succ] at h
    cases hw : waitLoop env (targetUsOf startUs i) fuel
        (setTone ((s.g.symbols.getD i 0 : Nat) : Int) s) with
    | none => rw [hw] at h; simp at h
    | some s2 =>
      rw [hw] at h
      simp only at h
      obtain ⟨h1, _⟩ := waitLoop_clock env (targetUsOf startUs i) fuel
        (setTone ((s.g.symbols.getD i 0 : Nat) : Int) s) _ hw
      obtain ⟨h3, h4⟩ := ih _ _ _ h
      have h1' : s.clockReads < s2.clockReads := h1
      have : i + (n + 1) = i + 1 + n := by omega
      rw [this]
      exact ⟨by omega, h4⟩

/-- An armed run that returns: its last clock reading is the deadline check
of symbol 161 that found the deadline reached. -/
theorem armed_last_check (env : Env) (fuel : Nat) (g : Globals)
    (hen : g.cfg.txEnabled = true) (hv : 1000000000 < env.wallClock) (s : TxState)
    (h : transmitWSPR env fuel g = some s) :
    1 < s.clockReads ∧
    ¬ toInt32 (sub32 (env.microsAt (s.clockReads - 1) % U32)
        (targetUsOf (env.microsAt 0 % U32) 161)) < 0 := by
  obtain ⟨s2, hl, rfl⟩ := transmitWSPR_armed env fuel g hen hv s h
  obtain ⟨h1, h2⟩ := txLoop_last_check env fuel _ 161 0 _ _ hl
  exact ⟨by simpa [rfOff] using h1, by simpa [rfOff] using h2⟩

theorem serviceOnce_count (env : Env) (s : TxState)
    (h : s.trace.count Event.handleClient = s.served) :
    (serviceOnce env s).trace.count Event.handleClient = (serviceOnce env s).served := by
  unfold serviceOnce
  by_cases hc : env.captivePortalActive = true <;> simp [hc, List.count_append, h]

theorem waitLoop_count (env : Env) (targetUs : Nat) :
    ∀ (fuel : Nat) (s s' : TxState), s.trace.count Event.handleClient = s.served →
      waitLoop env targetUs fuel s = some s' →
      s'.trace.count Event.handleClient = s'.served := by
  intro fuel
  induction fuel with
  | zero => intro s s' _ h; simp [waitLoop] at h
  | succ fuel ih =>
    intro s s' hcnt h
    rw [waitLoop_succ] at h
    split at h
    · refine ih _ _ (serviceOnce_count env _ ?_) h
      simp [List.count_append, hcnt]
    · injection h with h
      subst h
      simp [List.count_append, hcnt]

theorem txLoop_positions (env : Env) (fuel startUs : Nat) (c0 : Config) :
    ∀ (n i : Nat) (s s' : TxState), s.g.cfg = applyServes env s.served c0 →
      s.trace.count Event.handleClient = s.served →
      txLoop env fuel startUs n i s = some s' →
      (∃ ext, s'.trace = s.trace ++ ext) ∧
      ∀ j, j < n → ∃ pre post : List Event,
        s'.trace = pre ++ toneEvent (applyServes env (pre.count Event.handleClient) c0)
          s.g.sessionFreqOffsetHz s.g.symbols (i + j) :: post ∧
        (pre.filter Event.isFreqWrite).length = (s.trace.filter Event.isFreqWrite).length + j := by
  intro n
  induction n with
  | zero =>
    intro i s s' _ _ h
    simp only [txLoop] at h
    injection h with h
    subst h
    exact ⟨⟨[], by simp⟩, fun j hj => absurd hj (Nat.not_lt_zero j)⟩
  | succ n ih =>
    intro i s s' hinv hcnt h
    rw [txLoop_succ] at h
    cases hw : waitLoop env (targetUsOf startUs i) fuel
        (setTone ((s.g.symbols.getD i 0 : Nat) : Int) s) with
    | none => rw [hw] at h; simp at h
    | some s2 =>
      rw [hw] at h
      simp only at h
      obtain ⟨w, hwt, hblk, hoff, hsym⟩ := waitLoop_spec env _ _ _ _ hw
      obtain ⟨hinv2, _, _, _⟩ := waitLoop_live env _ c0 _
        (setTone ((s.g.symbols.getD i 0 : Nat) : Int) s) _ hinv hw
      have hcnt2 := waitLoop_count env _ _
        (setTone ((s.g.symbols.getD i 0 : Nat) : Int) s) _
        (by simp [setTone, List.count_append, hcnt]) hw
      obtain ⟨⟨ext, hext⟩, hall⟩ := ih _ _ _ hinv2 hcnt2 h
      have hoff1 : s2.g.sessionFreqOffsetHz = s.g.sessionFreqOffsetHz := hoff
      have hsym1 : s2.g.symbols = s.g.symbols := hsym
      have hs2 : s2.trace = s.trace ++
          toneEvent (applyServes env (s.trace.count Event.handleClient) c0)
            s.g.sessionFreqOffsetHz s.g.symbols i :: w := by
        rw [hwt, hcnt, ← hinv]
        simp [setTone, toneEvent]
      refine ⟨⟨toneEvent (applyServes env (s.trace.count Event.handleClient) c0)
        s.g.sessionFreqOffsetHz s.g.symbols i :: (w ++ ext), by rw [hext, hs2]; simp⟩, ?_⟩
      intro j hj
      cases j with
      | zero =>
        exact ⟨s.trace, w ++ ext, by rw [hext, hs2]; simp, by simp⟩
      | succ j =>
        obtain ⟨pre, post, htr, hlen⟩ := hall j (by omega)
        refine ⟨pre, post, ?_, ?_⟩
        · rw [htr, hoff1, hsym1]
          have : i + 1 + j = i + (j + 1) := by omega
          rw [this]
        · rw [hlen, hs2]
          simp only [List.filter_append, List.filter_cons, toneEvent, Event.isFreqWrite,
            waitBlock_no_freqWrite _ _ hblk]
          simp
          omega

/-- An armed run that returns: the frequency write of symbol `j` is computed
from the settings at arming as changed by the servicing calls before it. -/
theorem armed_positions (env : Env) (fuel : Nat) (g : Globals)
    (hen : g.cfg.txEnabled = true) (hv : 1000000000 < env.wallClock) (s : TxState)
    (h : transmitWSPR env fuel g = some s) :
    ∀ j, j < 162 → ∃ pre post : List Event,
      s.trace = pre ++ toneEvent (applyServes env (pre.count Event.handleClient) g.cfg)
        (env.randomDraw : ℚ)
        (env.wspr_encode g.cfg.CALLSIGN g.cfg.LOCATOR g.cfg.POWER_DBM) j :: post ∧
      (pre.filter Event.isFreqWrite).length = j := by
  obtain ⟨s2, hl, rfl⟩ := transmitWSPR_armed env fuel g hen hv s h
  obtain ⟨_, hall⟩ := txLoop_positions env fuel _ g.cfg _ _ _ _
    (by simp [rfOn, armGlobals, applyServes]) (by simp [rfOn]) hl
  intro j hj
  obtain ⟨pre, post, htr, hlen⟩ := hall j hj
  refine ⟨pre, post ++ [Event.output_enable (activeClock s2.g.cfg) 0,
    Event.set_freq 0 (activeClock s2.g.cfg)], ?_, ?_⟩
  · simp only [rfOff, htr]
    simp [rfOn, armGlobals]
  · simpa [rfOn, List.filter_cons, Event.isFreqWrite] using hlen

/-- The sample run with the band switch satisfies the clock assumption. -/
theorem bandSwitchEnv_clock : ClockAdvances bandSwitchEnv := by
  intro k
  simp only [bandSwitchEnv]
  split <;> split <;> omega

set_option maxRecDepth 100000 in
/-- The first two frequency writes of the run `bandSwitchEnv`. -/
theorem bandSwitch_run_writes :
    (transmitWSPR bandSwitchEnv 5 sampleGlobals).map
        (fun s => ((s.trace.filter Event.isFreqWrite)[0]?,
                   (s.trace.filter Event.isFreqWrite)[1]?)) =
      some (some (Event.set_freq 703934492 0), some (Event.set_freq 1409576992 1)) := by
  decide!

/-- The write of symbol 1 computed from the settings at arming. -/
theorem bandSwitch_arm_write :
    toneEvent sampleGlobals.cfg ((bandSwitchEnv.randomDraw : Int) : ℚ)
        (bandSwitchEnv.wspr_encode sampleGlobals.cfg.CALLSIGN sampleGlobals.cfg.LOCATOR
          sampleGlobals.cfg.POWER_DBM) 1 = Event.set_freq 703934492 0 := by
  decide!

/-- C11 fails as stated: in the run `bandSwitchEnv` the fourth servicing
call, during the wait of symbol 0, handles a `/save_wspr` request that is
accepted; the write of symbol 0 is 7,039,344.92 Hz on output 0, but the
write of symbol 1 is 14,095,769.92 Hz on output 1, not the value computed
from the settings at arming. -/
theorem settings_not_frozen_at_arm :
    (handleSaveWspr bandSwitchRequest sampleConfig).status = 200 ∧
    (transmitWSPR bandSwitchEnv 5 sampleGlobals).map
        (fun s => ((s.trace.filter Event.isFreqWrite)[0]?,
                   (s.trace.filter Event.isFreqWrite)[1]?)) =
      some (some (Event.set_freq 703934492 0), some (Event.set_freq 1409576992 1)) ∧
    ¬ FrozenAtArm bandSwitchEnv 5 sampleGlobals := by
  have h2 := bandSwitch_run_writes
  refine ⟨by decide, h2, fun hfrozen => ?_⟩
  cases hrun : transmitWSPR bandSwitchEnv 5 sampleGlobals with
  | none => rw [hrun] at h2; simp at h2
  | some s =>
    rw [hrun] at h2
    simp only [Option.map_some', Option.some.injEq, Prod.mk.injEq] at h2
    have h4 := hfrozen s hrun 1 (by decide)
    rw [h2.2, bandSwitch_arm_write] at h4
    simp at h4

/-- C11 as amended: only the session offset and the symbol sequence are fixed
at arming.  In an armed run the frequency and clock output commanded for
symbol `j` are computed from the live settings: the settings at arming as
changed by every servicing call that precedes the write in the trace.  Under
the clock assumption the run does return. -/
theorem transmitWSPR_live_settings (env : Env) (fuel : Nat) (g : Globals)
    (hen : g.cfg.txEnabled = true) (hv : 1000000000 < env.wallClock) :
    (∀ s, transmitWSPR env fuel g = some s → ∀ j, j < 162 →
      ∃ pre post : List Event,
        s.trace = pre ++ toneEvent (applyServes env (pre.count Event.handleClient) g.cfg)
          (env.randomDraw : ℚ)
          (env.wspr_encode g.cfg.CALLSIGN g.cfg.LOCATOR g.cfg.POWER_DBM) j :: post ∧
        (pre.filter Event.isFreqWrite).length = j) ∧
    (ClockAdvances env → 2147483648 < fuel → ∃ s, transmitWSPR env fuel g = some s) :=
  ⟨fun s h => armed_positions env fuel g hen hv s h,
   fun hclk hf => transmitWSPR_terminates env hclk fuel hf g⟩

/-- The amended C11 on the run `bandSwitchEnv`. -/
theorem transmitWSPR_live_settings_witness :
    ∃ s, transmitWSPR bandSwitchEnv 2147483649 sampleGlobals = some s ∧
      ∃ pre post : List Event,
        s.trace = pre ++ toneEvent
          (applyServes bandSwitchEnv (pre.count Event.handleClient) sampleConfig) 42
          (List.replicate 162 2) 1 :: post ∧
        (pre.filter Event.isFreqWrite).length = 1 := by
  have h := transmitWSPR_live_settings bandSwitchEnv 2147483649 sampleGlobals rfl (by decide)
  obtain ⟨s, hs⟩ := h.2 bandSwitchEnv_clock (by decide)
  obtain ⟨pre, post, htr, hlen⟩ := h.1 s hs 1 (by decide)
  refine ⟨s, hs, pre, post, ?_, hlen⟩
  rw [htr]
  simp [bandSwitchEnv, sampleEnv, sampleGlobals]

theorem microsAt_mono (env : Env) (hmono : ∀ k, env.microsAt k ≤ env.microsAt (k + 1)) :
    ∀ k, env.microsAt 0 ≤ env.microsAt k := by
  intro k
  induction k with
  | zero => exact Nat.le_refl _
  | succ k ih => exact Nat.le_trans ih (hmono k)

/-- The deadline of symbol `i` with a single reduction:
`(startUs + (i + 1) * 683000) mod 2^32`. -/
theorem targetUsOf_eq (startUs i : Nat) :
    targetUsOf startUs i = (startUs + (i + 1) * 683000) % 4294967296 := by
  simp only [targetUsOf, U32, SYMBOL_PERIOD_US]
  omega

/-- C13: in an armed run that returns, with a clock that never goes back,
the time between the reading of `startUs` and the last clock reading before
`rfOff` (the deadline check of symbol 161 that ends the loop) is at least
`162 * 683000 = 110,646,000` microseconds; this needs no bound on the length
of the session, so it holds for sessions shorter than `2^31` microseconds. -/
theorem transmitWSPR_duration (env : Env) (fuel : Nat) (g : Globals) (s : TxState)
    (hen : g.cfg.txEnabled = true) (hv : 1000000000 < env.wallClock)
    (hmono : ∀ k, env.microsAt k ≤ env.microsAt (k + 1))
    (hrun : transmitWSPR env fuel g = some s) :
    1 < s.clockReads ∧
    env.microsAt 0 + 162 * SYMBOL_PERIOD_US ≤ env.microsAt (s.clockReads - 1) ∧
    162 * SYMBOL_PERIOD_US = 110646000 := by
  obtain ⟨hreads, hlast⟩ := armed_last_check env fuel g hen hv s hrun
  have h0 := microsAt_mono env hmono (s.clockReads - 1)
  refine ⟨hreads, ?_, rfl⟩
  rw [targetUsOf_eq] at hlast
  simp only [toInt32, sub32, U32, SYMBOL_PERIOD_US] at hlast ⊢
  split at hlast <;> omega

/-- C13 on the sample run, whose clock is read every 341.5 ms. -/
theorem transmitWSPR_duration_witness :
    ∃ s, transmitWSPR sampleEnv 2147483649 sampleGlobals = some s ∧
      sampleEnv.microsAt 0 + 110646000 ≤ sampleEnv.microsAt (s.clockReads - 1) := by
  obtain ⟨s, hs⟩ := transmitWSPR_terminates sampleEnv sampleEnv_clock 2147483649
    (by decide) sampleGlobals
  exact ⟨s, hs, (transmitWSPR_duration sampleEnv 2147483649 sampleGlobals s rfl (by decide)
    (fun k => by simp only [sampleEnv]; omega) hs).2.1⟩

/-- C18: `computeNextTxEpoch` returns for every `now >= 0` in both modes,
within two iterations of its loop; in alternate mode the result is the first
candidate or the first candidate advanced by 120 once. -/
theorem computeNextTxEpoch_terminates (txEverySlot : Bool) (fuel : Nat) (now : Int)
    (h : 0 ≤ now) (hf : 2 ≤ fuel) :
    ∃ t : Int, computeNextTxEpoch txEverySlot fuel now = some t ∧
      computeNextTxEpoch txEverySlot 2 now = some t ∧
      (txEverySlot = false →
        t = (now.tdiv 120 + 1) * 120 ∨ t = (now.tdiv 120 + 1) * 120 + 120) := by
  cases txEverySlot with
  | true =>
    exact ⟨_, computeNextTxEpoch_every_eq fuel now h, computeNextTxEpoch_every_eq 2 now h,
      fun hc => by simp at hc⟩
  | false =>
    refine ⟨_, computeNextTxEpoch_alternate_eq fuel now h hf,
      computeNextTxEpoch_alternate_eq 2 now h (Nat.le_refl 2), fun _ => ?_⟩
    rw [Int.tdiv_eq_ediv h (by norm_num)]
    omega

/-- C18 at `now = 0` (one advance) and `now = 120` (none). -/
theorem computeNextTxEpoch_terminates_witness :
    (∃ t : Int, computeNextTxEpoch false 2 0 = some t ∧ (t = 120 ∨ t = 240)) ∧
    (∃ t : Int, computeNextTxEpoch false 2 120 = some t ∧ (t = 240 ∨ t = 360)) := by
  obtain ⟨t, _, h2, h3⟩ := computeNextTxEpoch_terminates false 2 0 (by decide) (by decide)
  obtain ⟨u, _, k2, k3⟩ := computeNextTxEpoch_terminates false 2 120 (by decide) (by decide)
  exact ⟨⟨t, h2, by simpa using h3 rfl⟩, ⟨u, k2, by simpa using k3 rfl⟩⟩

/-- C19: for a 32-bit `startUs` and `i < 162` the deadline of symbol `i` is
`(startUs + (i + 1) * 683000) mod 2^32`, the product being at most
110,646,000 and so below `2^32`; and in an armed run every deadline check of
symbol `i` is made against that value computed from the `startUs` read after
`rfOn`, whatever the clock readings and servicing calls of earlier symbols
were. -/
theorem deadline_from_start (env : Env) (fuel : Nat) (g : Globals)
    (hen : g.cfg.txEnabled = true) (hv : 1000000000 < env.wallClock) :
    (∀ startUs i, startUs < U32 → i < 162 →
      (i + 1) * SYMBOL_PERIOD_US ≤ 110646000 ∧ 110646000 < U32 ∧
      targetUsOf startUs i = (startUs + (i + 1) * 683000) % 4294967296) ∧
    (∀ s, transmitWSPR env fuel g = some s →
      ∃ blocks : List (List Event), blocks.length = 162 ∧
        s.trace = Event.output_enable (activeClock g.cfg) 1 ::
          (blocks.flatten ++ [Event.output_enable (activeClock s.g.cfg) 0,
                              Event.set_freq 0 (activeClock s.g.cfg)]) ∧
        ∀ i, i < 162 → ∃ block, blocks[i]? = some block ∧
          (∃ a, Event.deadlineCheck a
            ((env.microsAt 0 % U32 + (i + 1) * 683000) % 4294967296) ∈ block) ∧
          ∀ a b, Event.deadlineCheck a b ∈ block →
            b = (env.microsAt 0 % U32 + (i + 1) * 683000) % 4294967296) := by
  refine ⟨fun startUs i hs hi => ⟨?_, by decide, targetUsOf_eq startUs i⟩,
    fun s h => ?_⟩
  · simp only [SYMBOL_PERIOD_US]
    omega
  · obtain ⟨blocks, hlen, htr, _, _, hall⟩ := armed_trace env fuel g hen hv s h
    refine ⟨blocks, hlen, htr, fun i hi => ?_⟩
    obtain ⟨c, w, hb, ⟨_, htgt, pre, nowUs, hpre, _⟩, _⟩ := hall i hi
    have heq := targetUsOf_eq (env.microsAt 0 % U32) i
    refine ⟨_, hb, ⟨nowUs, ?_⟩, fun a b hab => ?_⟩
    · rw [← heq, hpre]
      simp
    · rw [← heq]
      simp only [List.mem_cons, toneEvent] at hab
      rcases hab with hab | hab
      · cases hab
      · exact htgt a b hab

/-- C19 at `startUs = 4,294,000,000`, where the deadline of symbol 1 wraps,
and on the sample run, where `startUs` is 5. -/
theorem deadline_from_start_witness :
    targetUsOf 4294000000 1 = 398704 ∧
    ∃ s, transmitWSPR sampleEnv 2147483649 sampleGlobals = some s ∧
      ∃ blocks : List (List Event), blocks.length = 162 ∧
        ∀ i, i < 162 → ∃ block, blocks[i]? = some block ∧
          ∀ a b, Event.deadlineCheck a b ∈ block →
            b = (5 + (i + 1) * 683000) % 4294967296 := by
  have h := deadline_from_start sampleEnv 2147483649 sampleGlobals rfl (by decide)
  obtain ⟨s, hs⟩ := transmitWSPR_terminates sampleEnv sampleEnv_clock 2147483649
    (by decide) sampleGlobals
  obtain ⟨blocks, hlen, _, hall⟩ := h.2 s hs
  refine ⟨by rw [(h.1 4294000000 1 (by decide) (by decide)).2.2], s, hs, blocks, hlen,
    fun i hi => ?_⟩
  obtain ⟨block, hb, _, htgt⟩ := hall i hi
  exact ⟨block, hb, htgt⟩

/-- C20: for every `startUs` and symbol index `i` (so for a 32-bit
`startUs` and `i` in 0..161) and a true elapsed time `e` within `2^31`
microseconds of the deadline offset `(i + 1) * 683000`, the test
`(int32_t)(micros() - targetUs) < 0` of the wait loop, with
`micros() = (startUs + e) mod 2^32` and `targetUs` the deadline of symbol
`i`, holds exactly when `e < (i + 1) * 683000`, wrapped counter or not. -/
theorem deadline_test_wrap_tolerant (startUs i e : Nat)
    (he : |(e : Int) - (((i + 1) * 683000 : Nat) : Int)| < 2147483648) :
    toInt32 (sub32 ((startUs + e) % U32) (targetUsOf startUs i)) < 0 ↔
      e < (i + 1) * 683000 := by
  rw [targetUsOf_eq startUs i]
  rw [abs_lt] at he
  simp only [toInt32, sub32, U32] at *
  split <;> omega

/-- C20 with `startUs = 4,294,000,000`, so that the deadline of symbol 0 lies
beyond the wrap of the counter: one microsecond before the deadline the test
holds, at the deadline it does not. -/
theorem deadline_test_wrap_tolerant_witness :
    toInt32 (sub32 ((4294000000 + 682999) % U32) (targetUsOf 4294000000 0)) < 0 ∧
    ¬ toInt32 (sub32 ((4294000000 + 683000) % U32) (targetUsOf 4294000000 0)) < 0 :=
  ⟨(deadline_test_wrap_tolerant 4294000000 0 682999 (by norm_num [abs_lt])).2 (by decide),
   fun hc => absurd ((deadline_test_wrap_tolerant 4294000000 0 683000
      (by norm_num [abs_lt])).1 hc) (by decide)⟩

/-! ## Settings: lemmas -/

theorem toupper_toNat (c : Char) :
    (toupper c).toNat = if 97 ≤ c.toNat ∧ c.toNat ≤ 122 then c.toNat - 32 else c.toNat := by
  unfold toupper
  split
  · rename_i h
    have hc : c = Char.ofNat c.toNat := (Char.ofNat_toNat c).symm
    generalize c.toNat = n at h hc ⊢
    obtain ⟨h1, h2⟩ := h
    interval_cases n <;> rfl
  · rfl

theorem isspace_toupper (c : Char) : isspace (toupper c) = isspace c := by
  simp only [isspace, toupper_toNat]
  split
  · rename_i h
    have h1 : ¬ (c.toNat - 32 = 32) := by omega
    have h2 : ¬ (c.toNat = 32) := by omega
    have h3 : ¬ (c.toNat - 32 ≤ 13) := by omega
    have h4 : ¬ (c.toNat ≤ 13) := by omega
    simp [h1, h2, h3, h4]
  · rfl

theorem toupper_idem (c : Char) : toupper (toupper c) = toupper c := by
  by_cases hc : 97 ≤ c.toNat ∧ c.toNat ≤ 122
  · have h := toupper_toNat c
    rw [if_pos hc] at h
    have hn : ¬ (97 ≤ (toupper c).toNat ∧ (toupper c).toNat ≤ 122) := by
      rw [h]; omega
    generalize toupper c = d at hn ⊢
    unfold toupper
    rw [if_neg hn]
  · have h : toupper c = c := by
      unfold toupper
      rw [if_neg hc]
    rw [h, h]

theorem trim_trim (l : List Char) : trim (trim l) = trim l := by
  unfold trim
  have hpre : (l.dropWhile isspace).rdropWhile isspace <+: l.dropWhile isspace :=
    List.rdropWhile_prefix _ _
  have hdrop : ((l.dropWhile isspace).rdropWhile isspace).dropWhile isspace
      = (l.dropWhile isspace).rdropWhile isspace := by
    cases hm : l.dropWhile isspace with
    | nil => simp [List.rdropWhile]
    | cons a m =>
      have ha : isspace a = false := by
        have := List.dropWhile_idempotent isspace l
        rw [hm] at this
        by_contra hc
        simp only [Bool.not_eq_false] at hc
        rw [List.dropWhile_cons_of_pos hc] at this
        have hlen := congrArg List.length this
        have := (List.dropWhile_sublist isspace (l := m)).length_le
        simp at hlen
        omega
      rw [hm] at hpre
      rcases List.prefix_cons_iff.1 hpre with h0 | ⟨t, ht, _⟩
      · rw [h0]; rfl
      · rw [ht, List.dropWhile_cons_of_neg (by simp [ha])]
  rw [hdrop, List.rdropWhile_idempotent]

theorem trim_map_toupper (l : List Char) : trim (l.map toupper) = (trim l).map toupper := by
  have hcomp : (isspace ∘ toupper) = isspace := funext isspace_toupper
  unfold trim
  simp only [List.rdropWhile, List.dropWhile_map, hcomp, ← List.map_reverse]

theorem trimUpper_idem (s : String) : trimUpper (String.mk (trimUpper s)) = trimUpper s := by
  simp only [trimUpper, toUpperCase]
  rw [trim_map_toupper, trim_trim, List.map_map]
  apply List.map_congr_left
  intro c _
  exact toupper_idem c

theorem isValidCallsign_trimUpper (s : String) :
    isValidCallsign (String.mk (trimUpper s)) = isValidCallsign s := by
  simp only [isValidCallsign, trimUpper_idem]

theorem isValidLocator_trimUpper (s : String) :
    isValidLocator (String.mk (trimUpper s)) = isValidLocator s := by
  simp only [isValidLocator, trimUpper_idem]

theorem isValidCallsign_iff (s : String) :
    isValidCallsign s = true ↔
      3 ≤ (trimUpper s).length ∧ (trimUpper s).length ≤ 6 ∧
        ∀ ch ∈ trimUpper s, isalnum ch = true := by
  simp only [isValidCallsign]
  split
  · rename_i h
    constructor
    · intro hc; simp at hc
    · intro hc; omega
  · rename_i h
    rw [List.all_eq_true]
    constructor
    · intro hc; exact ⟨by omega, by omega, hc⟩
    · intro hc; exact hc.2.2

theorem isValidLocator_iff (s : String) :
    isValidLocator s = true ↔
      ∃ g0 g1 g2 g3 : Char, trimUpper s = [g0, g1, g2, g3] ∧
        65 ≤ g0.toNat ∧ g0.toNat ≤ 82 ∧ 65 ≤ g1.toNat ∧ g1.toNat ≤ 82 ∧
        isdigit g2 = true ∧ isdigit g3 = true := by
  simp only [isValidLocator]
  constructor
  · intro h
    split at h
    · simp at h
    · split at h
      · rename_i g0 g1 g2 g3 heq
        simp only [Bool.and_eq_true, decide_eq_true_eq] at h
        exact ⟨g0, g1, g2, g3, heq, h.1.1.1.1, h.1.1.1.2, h.1.1.2.1, h.1.1.2.2, h.1.2, h.2⟩
      · simp at h
  · rintro ⟨g0, g1, g2, g3, heq, h1, h2, h3, h4, h5, h6⟩
    rw [heq]
    simp [h1, h2, h3, h4, h5, h6]

/-- The four checks of `handleSaveWspr` in the order the code makes them. -/
theorem handleSaveWspr_cases (req : SaveWsprRequest) (c : Config) :
    (isValidCallsign req.call = true ∧ isValidLocator req.loc = true ∧
        0 ≤ req.pwr ∧ req.pwr ≤ 60 ∧ 0 ≤ req.band ∧ req.band < 12 ∧
        (handleSaveWspr req c).status = 200 ∧ (handleSaveWspr req c).body = "OK" ∧
        (handleSaveWspr req c).saved = [(handleSaveWspr req c).cfg] ∧
        (handleSaveWspr req c).cfg.CALLSIGN = String.mk (trimUpper req.call) ∧
        (handleSaveWspr req c).cfg.LOCATOR = String.mk (trimUpper req.loc) ∧
        ((handleSaveWspr req c).cfg.POWER_DBM : Int) = req.pwr ∧
        ((handleSaveWspr req c).cfg.bandIndex : Int) = req.band) ∨
    ((isValidCallsign req.call = false ∨ isValidLocator req.loc = false ∨
        req.pwr < 0 ∨ 60 < req.pwr ∨ req.band < 0 ∨ 12 ≤ req.band) ∧
        (handleSaveWspr req c).status = 400 ∧ (handleSaveWspr req c).saved = [] ∧
        (handleSaveWspr req c).cfg = c) := by
  unfold handleSaveWspr
  simp only [isValidCallsign_trimUpper, isValidLocator_trimUpper]
  cases hcall : isValidCallsign req.call with
  | false => right; simp
  | true =>
    cases hloc : isValidLocator req.loc with
    | false => right; simp
    | true =>
      by_cases hp : req.pwr < 0 ∨ req.pwr > 60
      · right
        simp only [hp, Bool.not_true, Bool.false_eq_true, if_false, if_true]
        refine ⟨?_, by trivial, by trivial, by trivial⟩
        rcases hp with hp | hp
        · exact Or.inr (Or.inr (Or.inl hp))
        · exact Or.inr (Or.inr (Or.inr (Or.inl hp)))
      · by_cases hb : req.band < 0 ∨ req.band.toNat ≥ NUM_BANDS
        · right
          simp only [hp, hb, Bool.not_true, Bool.false_eq_true, if_false, if_true]
          refine ⟨?_, by trivial, by trivial, by trivial⟩
          rcases hb with hb | hb
          · exact Or.inr (Or.inr (Or.inr (Or.inr (Or.inl hb))))
          · have : NUM_BANDS = 12 := rfl
            exact Or.inr (Or.inr (Or.inr (Or.inr (Or.inr (by omega)))))
        · left
          simp only [hp, hb, Bool.not_true, Bool.false_eq_true, if_false]
          have : NUM_BANDS = 12 := rfl
          refine ⟨by trivial, by trivial, by omega, by omega, by omega, by omega, by trivial,
            by trivial, by trivial, by trivial, by trivial, ?_, ?_⟩
          · omega
          · omega

/-! ## The claims on the settings -/

/-- C14: a request whose callsign, locator, power or band fails validation is
answered with status 400, leaves every settings field as it was and makes no
call of `saveSettings`. -/
theorem handleSaveWspr_rejects_unchanged (req : SaveWsprRequest) (c : Config)
    (h : isValidCallsign req.call = false ∨ isValidLocator req.loc = false ∨
      req.pwr < 0 ∨ 60 < req.pwr ∨ req.band < 0 ∨ 12 ≤ req.band) :
    (handleSaveWspr req c).status = 400 ∧ (handleSaveWspr req c).cfg = c ∧
      (handleSaveWspr req c).saved = [] := by
  rcases handleSaveWspr_cases req c with hok | hbad
  · obtain ⟨h1, h2, h3, h4, h5, h6, _⟩ := hok
    rcases h with h | h | h | h | h | h
    · rw [h1] at h; cases h
    · rw [h2] at h; cases h
    · omega
    · omega
    · omega
    · omega
  · exact ⟨hbad.2.1, hbad.2.2.2, hbad.2.2.1⟩

/-- C14 on the band-switch request with the locator replaced by `ZZ00`. -/
theorem handleSaveWspr_rejects_unchanged_witness :
    (handleSaveWspr { bandSwitchRequest with loc := "ZZ00" } sampleConfig).status = 400 ∧
    (handleSaveWspr { bandSwitchRequest with loc := "ZZ00" } sampleConfig).cfg = sampleConfig ∧
    (handleSaveWspr { bandSwitchRequest with loc := "ZZ00" } sampleConfig).saved = [] :=
  handleSaveWspr_rejects_unchanged { bandSwitchRequest with loc := "ZZ00" } sampleConfig
    (Or.inr (Or.inl (by decide)))

/-- C15: `handleSaveWspr` answers 200 exactly when the trimmed, upper-cased
callsign has 3 to 6 characters, all alphanumeric, the trimmed, upper-cased
locator is four characters `[A-R][A-R][0-9][0-9]`, `0 <= pwr <= 60` and
`0 <= band < 12`; it then stores the trimmed, upper-cased callsign and
locator, the power and the band, saves the settings once and replies `OK`. -/
theorem handleSaveWspr_accepts_iff (req : SaveWsprRequest) (c : Config) :
    ((handleSaveWspr req c).status = 200 ↔
      (3 ≤ (trimUpper req.call).length ∧ (trimUpper req.call).length ≤ 6 ∧
        ∀ ch ∈ trimUpper req.call, isalnum ch = true) ∧
      (∃ g0 g1 g2 g3 : Char, trimUpper req.loc = [g0, g1, g2, g3] ∧
        65 ≤ g0.toNat ∧ g0.toNat ≤ 82 ∧ 65 ≤ g1.toNat ∧ g1.toNat ≤ 82 ∧
        isdigit g2 = true ∧ isdigit g3 = true) ∧
      0 ≤ req.pwr ∧ req.pwr ≤ 60 ∧ 0 ≤ req.band ∧ req.band < 12) ∧
    ((handleSaveWspr req c).status = 200 →
      (handleSaveWspr req c).cfg.CALLSIGN = String.mk (trimUpper req.call) ∧
      (handleSaveWspr req c).cfg.LOCATOR = String.mk (trimUpper req.loc) ∧
      ((handleSaveWspr req c).cfg.POWER_DBM : Int) = req.pwr ∧
      ((handleSaveWspr req c).cfg.bandIndex : Int) = req.band ∧
      (handleSaveWspr req c).saved = [(handleSaveWspr req c).cfg] ∧
      (handleSaveWspr req c).body = "OK") := by
  rw [← isValidCallsign_iff, ← isValidLocator_iff]
  rcases handleSaveWspr_cases req c with hok | hbad
  · obtain ⟨h1, h2, h3, h4, h5, h6, h7, h8, h9, h10, h11, h12, h13⟩ := hok
    exact ⟨⟨fun _ => ⟨h1, h2, h3, h4, h5, h6⟩, fun _ => h7⟩,
      fun _ => ⟨h10, h11, h12, h13, h9, h8⟩⟩
  · obtain ⟨hfail, hst, _, _⟩ := hbad
    refine ⟨⟨fun h => ?_, fun h => ?_⟩, fun h => ?_⟩
    · rw [hst] at h; cases h
    · obtain ⟨h1, h2, h3, h4, h5, h6⟩ := h
      rcases hfail with hf | hf | hf | hf | hf | hf
      · rw [h1] at hf; cases hf
      · rw [h2] at hf; cases hf
      · omega
      · omega
      · omega
      · omega
    · rw [hst] at h; cases h

/-- C15 on the band-switch request: accepted, with the callsign ` n0call `
stored as `N0CALL` and the locator `io91` as `IO91`. -/
theorem handleSaveWspr_accepts_iff_witness :
    (handleSaveWspr bandSwitchRequest sampleConfig).cfg.CALLSIGN = "N0CALL" ∧
    (handleSaveWspr bandSwitchRequest sampleConfig).cfg.LOCATOR = "IO91" := by
  obtain ⟨h1, h2, _⟩ := (handleSaveWspr_accepts_iff bandSwitchRequest sampleConfig).2
    (by decide)
  rw [h1, h2]
  decide

/-- C16: the band index is below `NUM_BANDS` in the initial globals, after
`loadSettings` for every store (a stored value outside the table is replaced
by 3, one inside is kept), and after `handleSaveWspr` for every request when
it was before. -/
theorem bandIndex_always_valid :
    initialConfig.bandIndex < NUM_BANDS ∧
    (∀ p : Prefs, (loadSettings p).bandIndex < NUM_BANDS ∧
      (NUM_BANDS ≤ p.band.getD 3 % 256 → (loadSettings p).bandIndex = 3) ∧
      (p.band.getD 3 % 256 < NUM_BANDS → (loadSettings p).bandIndex = p.band.getD 3 % 256)) ∧
    (∀ (req : SaveWsprRequest) (c : Config), c.bandIndex < NUM_BANDS →
      (handleSaveWspr req c).cfg.bandIndex < NUM_BANDS) := by
  have hnb : NUM_BANDS = 12 := rfl
  refine ⟨by decide, fun p => ?_, fun req c hc => ?_⟩
  · simp only [loadSettings, hnb]
    refine ⟨?_, fun h => by simp [h], fun h => by simp [Nat.not_le.2 h]⟩
    split <;> omega
  · rcases handleSaveWspr_cases req c with hok | hbad
    · obtain ⟨_, _, _, _, h5, h6, _, _, _, _, _, _, h13⟩ := hok
      rw [hnb]
      omega
    · rw [hbad.2.2.2]
      exact hc

/-- C16 on a store holding band 200, on the band-switch request and on a
rejected request. -/
theorem bandIndex_always_valid_witness :
    (loadSettings { emptyPrefs with band := some 200 }).bandIndex = 3 ∧
    (handleSaveWspr bandSwitchRequest sampleConfig).cfg.bandIndex < NUM_BANDS ∧
    (handleSaveWspr { bandSwitchRequest with band := 12 } sampleConfig).cfg.bandIndex
      < NUM_BANDS :=
  ⟨(bandIndex_always_valid.2.1 { emptyPrefs with band := some 200 }).2.1 (by decide),
   bandIndex_always_valid.2.2 bandSwitchRequest sampleConfig (by decide),
   bandIndex_always_valid.2.2 { bandSwitchRequest with band := 12 } sampleConfig (by decide)⟩

/-- C17 fails as stated: the settings loaded from an empty store do not
satisfy all field constraints, because `isValidLocator` rejects the default
locator `ZZ00`. -/
theorem default_locator_rejected :
    isValidLocator (loadSettings emptyPrefs).LOCATOR = false ∧
    ¬ (isValidCallsign (loadSettings emptyPrefs).CALLSIGN = true ∧
       isValidLocator (loadSettings emptyPrefs).LOCATOR = true ∧
       (loadSettings emptyPrefs).POWER_DBM ≤ 60 ∧
       (loadSettings emptyPrefs).bandIndex < NUM_BANDS) := by
  have h : isValidLocator (loadSettings emptyPrefs).LOCATOR = false := by decide
  refine ⟨h, fun hc => ?_⟩
  rw [h] at hc
  exact absurd hc.2.1 (by decide)

/-- C17 as amended: the settings loaded from an empty store have the callsign
`N0CALL`, which `isValidCallsign` accepts, the power 10, within 0..60, the
band index 3, below `NUM_BANDS`, and the placeholder locator `ZZ00`: two
letters and two digits, the letters outside `A`..`R`. -/
theorem loadSettings_empty_defaults :
    (loadSettings emptyPrefs).CALLSIGN = "N0CALL" ∧
    isValidCallsign (loadSettings emptyPrefs).CALLSIGN = true ∧
    (loadSettings emptyPrefs).POWER_DBM = 10 ∧ (loadSettings emptyPrefs).POWER_DBM ≤ 60 ∧
    (loadSettings emptyPrefs).bandIndex = 3 ∧ (loadSettings emptyPrefs).bandIndex < NUM_BANDS ∧
    (loadSettings emptyPrefs).LOCATOR = "ZZ00" ∧
    trimUpper (loadSettings emptyPrefs).LOCATOR = ['Z', 'Z', '0', '0'] ∧
    ¬ ('Z'.toNat ≤ 82) ∧ isdigit '0' = true := by
  decide

/-! ## The claims on the output channel and the window -/

set_option maxRecDepth 100000 in
/-- C21 fails on the code: in the run `bandSwitchEnv` a `/save_wspr` request
accepted during the wait of symbol 0 moves the beacon to a band on clock
output 1.  The session then starts with `output_enable(0, 1)` and ends with
`output_enable(1, 0)`: the only enable of the trace is on output 0, the only
disable is on output 1, and output 0 is never disabled. -/
theorem rfOff_misses_enabled_channel :
    (transmitWSPR bandSwitchEnv 5 sampleGlobals).map
        (fun s => (s.trace.head?, s.trace.filter Event.isEnable,
                   s.trace.filter Event.isDisable, activeClock s.g.cfg)) =
      some (some (Event.output_enable 0 1), [Event.output_enable 0 1],
            [Event.output_enable 1 0], 1) := by
  decide!

/-- With zero calibration and a non-negative offset and tone, the frequency
of `setTone` is never below the dial frequency, and it is within 200 Hz of
it exactly when `offset + tone * 1.4648` is at most 100. -/
theorem setToneHz_window_iff (g : Globals) (tone : Int)
    (hcal : g.cfg.bandCalHz.getD g.cfg.bandIndex 0 = 0)
    (hoff : 0 ≤ g.sessionFreqOffsetHz) (htone : 0 ≤ tone) :
    dialHz g.cfg.bandIndex ≤ setToneHz g tone ∧
    (setToneHz g tone ≤ dialHz g.cfg.bandIndex + 200 ↔
      g.sessionFreqOffsetHz + (tone : ℚ) * 1.4648 ≤ 100) := by
  have ht : (0 : ℚ) ≤ (tone : ℚ) := by exact_mod_cast htone
  simp only [setToneHz, wsprBaseHz, hcal, TONE_SPACING_HZ]
  constructor
  · nlinarith
  · constructor <;> intro h <;> linarith

/-- C22 fails on the code: on 160m (dial 1,836,600 Hz, calibration 0) with
the session offset 99 that `random(0, 100)` can return, tone 3 is commanded
at 1,836,803.3944 Hz, which is 3.3944 Hz above `dial_hz + 200`. -/
theorem setToneHz_above_window :
    dialHz band160Globals.cfg.bandIndex = 1836600 ∧
    (armGlobals topOffsetEnv band160Globals).cfg.bandCalHz.getD 0 0 = 0 ∧
    (armGlobals topOffsetEnv band160Globals).sessionFreqOffsetHz = 99 ∧
    setToneHz (armGlobals topOffsetEnv band160Globals) 3 = 1836803.3944 ∧
    ¬ (setToneHz (armGlobals topOffsetEnv band160Globals) 3
        ≤ dialHz band160Globals.cfg.bandIndex + 200) := by
  have hd : dialHz band160Globals.cfg.bandIndex = 1836600 := by
    norm_num [dialHz, band160Globals, sampleGlobals, sampleConfig, BANDS]
  have hf : setToneHz (armGlobals topOffsetEnv band160Globals) 3 = 1836803.3944 := by
    norm_num [setToneHz, armGlobals, topOffsetEnv, sampleEnv, band160Globals, sampleGlobals,
      sampleConfig, wsprBaseHz, dialHz, BANDS, TONE_SPACING_HZ]
  refine ⟨hd, by simp [armGlobals, band160Globals, sampleGlobals, sampleConfig],
    by simp [armGlobals, topOffsetEnv], hf, ?_⟩
  rw [hf, hd]
  norm_num

end WSPR
